import Mathlib

/-!
Verification development for the book-reading-tracker repository.

The development shallowly embeds the parts of the code the checked
properties are about:

* `src/dbService.ts` — the claim-state reconciliation read
  (`dbService.getVolumes`) and the claim write (`dbService.claimVolume`),
  including the JavaScript calendar-day arithmetic
  (`setDate(getDate() + plannedDays)`).
* `src/data.ts` — the generated catalog `INITIAL_VOLUMES`.
* `src/server.js` — the `/api/claim` handler (validation, pre-insert
  existence check, uniqueness-constraint conflict, cache invalidation),
  the `/api/claims` listing cache, the scroll-parameter validation of the
  three `/api/scripture` endpoints, the plain-text extraction pipeline of
  the `txt` endpoint and the punctuation-repair / annotation-pairing
  transform of the `pdf` endpoint.

Dates are modelled two ways, matching how the code uses them: as opaque
epoch timestamps (integers) where the code only compares them
(`now >= new Date(...)`), and as civil calendar datetimes where the code
does day-of-month arithmetic (`setDate`).  JavaScript regular-expression
`String.replace` with the `g` flag is modelled by hand-rolled scanners
that reproduce the leftmost-match, no-rescan-of-replacement semantics of
the concrete patterns appearing in the code.
-/

namespace BookTracker

/-! ## Data model (`src/types.ts`) -/

/-- `VolumeStatus` from `src/types.ts`. -/
inductive VolumeStatus where
  | unclaimed
  | claimed
  | completed
deriving DecidableEq, Repr

/-- `Volume` from `src/types.ts`.  Date-valued fields
(`claimedAt`, `expectedCompletionDate`) are modelled as parsed epoch
timestamps; `none` covers both an absent field and a string that
`new Date(...)` fails to parse (the code's `now >= new Date(d)`
comparison is false for an invalid date, exactly like the `none` case
here). -/
structure Volume where
  id : String
  volumeNumber : String
  volumeTitle : String
  status : VolumeStatus
  claimerName : Option String := none
  claimerPhone : Option String := none
  plannedDays : Option Int := none
  claimedAt : Option Int := none
  expectedCompletionDate : Option Int := none
  readingUrl : String
deriving DecidableEq, Repr

/-- One claim record as returned by the remote store (`/api/claims`).
`plannedDays` is stored as text and run through `parseInt` by the
overlay code, hence `Option Int`. -/
structure ClaimRecord where
  volumeId : String
  name : String
  phone : String
  plannedDays : Option Int := none
  claimedAt : Option Int := none
  expectedCompletionDate : Option Int := none
deriving DecidableEq, Repr

/-! ## Catalog generation (`src/data.ts`) -/

/-- `createSutraVolumes` from `src/data.ts`: volumes `1..scrolls` with
ids `startId + i`.  The source stores the numeric id in a field the
rest of the code compares via `String(...)`; the embedding renders it
as its decimal string. -/
def createSutraVolumes (startId : Nat) (subid : Nat) (part : Nat)
    (title : String) (scrolls : Nat) : List Volume :=
  (List.range scrolls).map fun i =>
    { id := toString (startId + (i + 1))
      volumeNumber := s!"第{part}部 卷{i + 1}"
      volumeTitle := s!"{title} 卷{i + 1}"
      status := VolumeStatus.unclaimed
      readingUrl := s!"https://w1.xianmijingzang.com/wap/tripitaka/id/43/subid/{subid}/" }

/-- `INITIAL_VOLUMES` from `src/data.ts` (the 般若部 catalog). -/
def INITIAL_VOLUMES : List Volume :=
  createSutraVolumes 1000 67 1 "大般若波羅蜜多j" 600 ++
  createSutraVolumes 2000 68 2 "放光般若波羅蜜j" 30 ++
  createSutraVolumes 3000 69 3 "摩訶般若波羅蜜j" 30 ++
  createSutraVolumes 4000 70 4 "光讚般若波羅蜜j" 10 ++
  createSutraVolumes 5000 71 5 "道行般若波羅蜜j" 10 ++
  createSutraVolumes 6000 75 6 "小品般若波羅蜜j" 10 ++
  createSutraVolumes 7000 76 7 "摩訶般若波羅蜜鈔j" 5 ++
  createSutraVolumes 8000 80 9 "勝天王般若波羅蜜j" 7 ++
  createSutraVolumes 9000 90 19 "文殊師利所說般若波羅蜜j" 1

/-! ## `dbService.getVolumes` (`src/dbService.ts`)

The read path: load the cached list from `localStorage` (falling back
to a fresh `INITIAL_VOLUMES` when the key is absent), overlay remote
claim records when the remote fetch succeeds, then upgrade overdue
`claimed` entries to `completed`.  A cache whose JSON fails to parse
throws, and the outer `catch` returns the bare catalog directly. -/

/-- State of the `localStorage` cache under `DB_KEY`:
absent (`getItem` returns `null`), readable (parses to a volume list),
or unreadable (`JSON.parse` throws, landing in the outer `catch`). -/
inductive CacheState where
  | absent
  | unreadable
  | readable (volumes : List Volume)
deriving DecidableEq, Repr

/-- `claims.find(c => String(c.volumeId) === String(volume.id))` —
identifier matching by string equality. -/
def findClaim (claims : List ClaimRecord) (volumeId : String) :
    Option ClaimRecord :=
  claims.find? fun c => c.volumeId == volumeId

/-- The overlay step of `getVolumes` for a single volume (lines 17–32 of
`src/dbService.ts`): a matching claim forces status `claimed` and copies
the claimer/timing fields; otherwise the volume passes through. -/
def overlayOne (claims : List ClaimRecord) (v : Volume) : Volume :=
  match findClaim claims v.id with
  | some c =>
      { v with
        status := VolumeStatus.claimed
        claimerName := some c.name
        claimerPhone := some c.phone
        plannedDays := c.plannedDays
        claimedAt := c.claimedAt
        expectedCompletionDate := c.expectedCompletionDate }
  | none => v

/-- The auto-completion step of `getVolumes` for a single volume
(lines 38–48 of `src/dbService.ts`): a `claimed` volume whose
`expectedCompletionDate` parses and is `<= now` becomes `completed`;
everything else passes through unchanged. -/
def completeOne (now : Int) (v : Volume) : Volume :=
  if v.status = VolumeStatus.claimed then
    match v.expectedCompletionDate with
    | some d => if d ≤ now then { v with status := VolumeStatus.completed } else v
    | none => v
  else v

/-- Overlay followed by completion for one volume: what `getVolumes`
does to each element of its base list when the remote fetch succeeds. -/
def reconcileOne (claims : List ClaimRecord) (now : Int) (v : Volume) : Volume :=
  completeOne now (overlayOne claims v)

/-- The auto-completion pass over the whole list. -/
def completeDue (now : Int) (volumes : List Volume) : List Volume :=
  volumes.map (completeOne now)

/-- `dbService.getVolumes` (first implementation in `src/dbService.ts`,
the one with the remote fetch).  `cache` is the `localStorage` state,
`remote` is `some claims` when the remote fetch succeeds and `none`
when it throws or responds non-ok (the inner `catch`/`!response.ok`
path), `now` is the evaluation time. -/
def getVolumes (cache : CacheState) (remote : Option (List ClaimRecord))
    (now : Int) : List Volume :=
  match cache with
  | CacheState.unreadable => INITIAL_VOLUMES
  | CacheState.absent =>
      match remote with
      | some claims => completeDue now (INITIAL_VOLUMES.map (overlayOne claims))
      | none => completeDue now INITIAL_VOLUMES
  | CacheState.readable vs =>
      match remote with
      | some claims => completeDue now (vs.map (overlayOne claims))
      | none => completeDue now vs

/-! ## `dbService.claimVolume` (`src/dbService.ts`)

The write path computes
`expectedCompletionDate.setDate(claimedAt.getDate() + plannedDays)` on a
copy of `claimedAt` — JavaScript day-of-month arithmetic: the
day-of-month field is set to `getDate() + plannedDays` and then
normalised into following months/years, all other wall-clock fields
unchanged.  The embedding models the local wall-clock datetime as a
civil (year, month, day, time-of-day) record; the timezone offset is
fixed (no DST transition is modelled, matching the spec's
"local machine's day boundary semantics" reading). -/

/-- Proleptic-Gregorian leap-year rule (what JavaScript `Date` uses). -/
def isLeap (y : Int) : Bool :=
  (y % 4 == 0 && y % 100 != 0) || y % 400 == 0

/-- Days in month `m` (0-based, as in JS `getMonth`) of year `y`.
Months past 11 do not arise: normalisation wraps the month before it
exceeds 11. -/
def daysInMonth (y : Int) (m : Nat) : Nat :=
  match m with
  | 0 => 31
  | 1 => if isLeap y then 29 else 28
  | 2 => 31
  | 3 => 30
  | 4 => 31
  | 5 => 30
  | 6 => 31
  | 7 => 31
  | 8 => 30
  | 9 => 31
  | 10 => 30
  | _ => 31

theorem daysInMonth_pos (y : Int) (m : Nat) : 0 < daysInMonth y m := by
  unfold daysInMonth
  split <;> first | omega | split <;> omega

theorem daysInMonth_ge_one (y : Int) (m : Nat) : 1 ≤ daysInMonth y m :=
  daysInMonth_pos y m

/-- Advance to the first day of the next month. -/
def nextMonth (y : Int) (m : Nat) : Int × Nat :=
  if m ≥ 11 then (y + 1, 0) else (y, m + 1)

/-- Normalise an out-of-range day-of-month into following months: the
effect of JS `setDate(d)` on the date fields for `d ≥ 1`. -/
def normalizeDate (y : Int) (m : Nat) (d : Nat) : Int × Nat × Nat :=
  if _h : daysInMonth y m < d then
    normalizeDate (nextMonth y m).1 (nextMonth y m).2 (d - daysInMonth y m)
  else (y, m, d)
termination_by d
decreasing_by
  have := daysInMonth_pos y m
  omega

/-- Specification-side calendar successor: the day after `(y, m, d)`. -/
def nextDay : Int × Nat × Nat → Int × Nat × Nat
  | (y, m, d) =>
      if daysInMonth y m < d + 1 then ((nextMonth y m).1, (nextMonth y m).2, 1)
      else (y, m, d + 1)

/-- A wall-clock local datetime as JavaScript `Date` field accessors
present it: `getFullYear`, `getMonth` (0-based), `getDate` (1-based),
and the time of day in milliseconds. -/
structure JSDateTime where
  year : Int
  month : Nat
  day : Nat
  msOfDay : Nat
deriving DecidableEq, Repr

/-- The date fields denote a real calendar date. -/
def ValidDT (t : JSDateTime) : Prop :=
  t.month ≤ 11 ∧ 1 ≤ t.day ∧ t.day ≤ daysInMonth t.year t.month

instance (t : JSDateTime) : Decidable (ValidDT t) := by
  unfold ValidDT; infer_instance

/-- `const e = new Date(claimedAt); e.setDate(claimedAt.getDate() + n)`:
the code's computation of the completion datetime. -/
def jsSetDateAdd (t : JSDateTime) (n : Nat) : JSDateTime :=
  let r := normalizeDate t.year t.month (t.day + n)
  { year := r.1, month := r.2.1, day := r.2.2, msOfDay := t.msOfDay }

/-- Modelled from the spec: "`expectedCompletionDate` = `claimedAt` +
`plannedDays` days, exactly, regardless of time-of-day" — calendar-day
addition as `n` iterations of the calendar successor, with the
wall-clock time of day carried over unchanged. -/
def addCalendarDays (t : JSDateTime) (n : Nat) : JSDateTime :=
  let r := nextDay^[n] (t.year, t.month, t.day)
  { year := r.1, month := r.2.1, day := r.2.2, msOfDay := t.msOfDay }

/-- `ClaimRequest` from `src/types.ts` (the fields `claimVolume`
reads).  `plannedDays = 0` stands for any JS-falsy value, which the
code defaults to 7 via `request.plannedDays || 7`. -/
structure DbClaimRequest where
  volumeId : String
  name : String
  phone : String
  plannedDays : Nat
deriving DecidableEq, Repr

/-- Outcome of `dbService.claimVolume`: `null` when the id is not in
the list, a thrown error when the volume is not unclaimed, otherwise
the updated claim fields (claimedAt, expectedCompletionDate, claimer
name/phone, plannedDays) written into the volume. -/
inductive ClaimVolumeResult where
  | nullResult
  | conflictThrown
  | success (claimedAt expectedCompletionDate : JSDateTime)
      (name phone : String) (plannedDays : Nat)
deriving DecidableEq, Repr

/-- `dbService.claimVolume` (`src/dbService.ts`): find the volume by
string-compared id, return `null` if absent, throw if it is not
unclaimed, otherwise set the claim fields with
`claimedAt = now` and
`expectedCompletionDate = setDate(getDate() + (plannedDays || 7))`. -/
def claimVolume (volumes : List Volume) (req : DbClaimRequest)
    (now : JSDateTime) : ClaimVolumeResult :=
  match volumes.find? (fun v => v.id == req.volumeId) with
  | none => ClaimVolumeResult.nullResult
  | some v =>
      if v.status ≠ VolumeStatus.unclaimed then ClaimVolumeResult.conflictThrown
      else
        ClaimVolumeResult.success now
          (jsSetDateAdd now (if req.plannedDays = 0 then 7 else req.plannedDays))
          req.name req.phone req.plannedDays

theorem normalizeDate_of_le (y : Int) (m : Nat) (d : Nat)
    (h : d ≤ daysInMonth y m) : normalizeDate y m d = (y, m, d) := by
  unfold normalizeDate
  rw [dif_neg (Nat.not_lt.mpr h)]

theorem normalizeDate_of_gt (y : Int) (m : Nat) (d : Nat)
    (h : daysInMonth y m < d) :
    normalizeDate y m d =
      normalizeDate (nextMonth y m).1 (nextMonth y m).2 (d - daysInMonth y m) := by
  conv_lhs => rw [normalizeDate]
  rw [dif_pos h]

/-- `setDate` normalisation commutes with the calendar successor. -/
theorem normalizeDate_succ (d : Nat) (y : Int) (m : Nat) (hd : 1 ≤ d) :
    normalizeDate y m (d + 1) = nextDay (normalizeDate y m d) := by
  induction d using Nat.strong_induction_on generalizing y m with
  | _ d ih =>
    by_cases h1 : d + 1 ≤ daysInMonth y m
    · rw [normalizeDate_of_le y m (d + 1) h1, normalizeDate_of_le y m d (by omega)]
      simp only [nextDay]
      rw [if_neg (Nat.not_lt.mpr h1)]
    · by_cases h2 : d = daysInMonth y m
      · rw [normalizeDate_of_gt y m (d + 1) (by omega)]
        have e1 : d + 1 - daysInMonth y m = 1 := by omega
        rw [e1, normalizeDate_of_le _ _ 1 (daysInMonth_ge_one _ _),
          normalizeDate_of_le y m d (by omega)]
        simp only [nextDay]
        rw [if_pos (by omega)]
      · have hgt : daysInMonth y m < d := by omega
        have hL := daysInMonth_pos y m
        rw [normalizeDate_of_gt y m (d + 1) (by omega), normalizeDate_of_gt y m d hgt]
        have e2 : d + 1 - daysInMonth y m = (d - daysInMonth y m) + 1 := by omega
        rw [e2]
        exact ih (d - daysInMonth y m) (by omega) _ _ (by omega)

/-- On a valid start date, the code's `setDate(getDate() + n)`
computation equals `n` iterations of the calendar successor, with the
time of day untouched. -/
theorem jsSetDateAdd_eq_addCalendarDays (t : JSDateTime) (n : Nat)
    (hv : ValidDT t) : jsSetDateAdd t n = addCalendarDays t n := by
  have key : ∀ k : Nat, normalizeDate t.year t.month (t.day + k) =
      nextDay^[k] (t.year, t.month, t.day) := by
    intro k
    induction k with
    | zero => simpa using normalizeDate_of_le _ _ _ hv.2.2
    | succ j ihj =>
        have e : t.day + (j + 1) = (t.day + j) + 1 := by omega
        rw [e, normalizeDate_succ (t.day + j) _ _ (by have := hv.2.1; omega), ihj,
          Function.iterate_succ_apply']
  simp [jsSetDateAdd, addCalendarDays, key n]

/-- A volume, request and claim time used to instantiate the
calendar-arithmetic theorem on a concrete month/year rollover. -/
def c3Volume : Volume :=
  { id := "1001", volumeNumber := "第1部 卷1", volumeTitle := "大般若波羅蜜多j 卷1",
    status := VolumeStatus.unclaimed,
    readingUrl := "https://w1.xianmijingzang.com/wap/tripitaka/id/43/subid/67/" }

def c3Request : DbClaimRequest :=
  { volumeId := "1001", name := "张三", phone := "13800000000", plannedDays := 3 }

/-- 2024-12-30 (month index 11), 12:34:56 local wall-clock time. -/
def c3Now : JSDateTime := { year := 2024, month := 11, day := 30, msOfDay := 45296000 }

/-! ## Support lemmas about the reconciliation read -/

/-- The immutable catalog metadata of a volume: id, number, title,
reading url. -/
def volumeMeta (v : Volume) : String × String × String × String :=
  (v.id, v.volumeNumber, v.volumeTitle, v.readingUrl)

/-- The base list `getVolumes` starts from: the cached list when the
cache is readable, the freshly generated catalog otherwise. -/
def baseOf : CacheState → List Volume
  | CacheState.readable vs => vs
  | _ => INITIAL_VOLUMES

theorem overlayOne_meta (cs : List ClaimRecord) (v : Volume) :
    volumeMeta (overlayOne cs v) = volumeMeta v := by
  unfold overlayOne
  cases findClaim cs v.id <;> rfl

theorem completeOne_meta (now : Int) (v : Volume) :
    volumeMeta (completeOne now v) = volumeMeta v := by
  unfold completeOne
  (repeat' split) <;> rfl

theorem overlayOne_id (cs : List ClaimRecord) (v : Volume) :
    (overlayOne cs v).id = v.id :=
  congrArg Prod.fst (overlayOne_meta cs v)

theorem completeOne_id (now : Int) (v : Volume) :
    (completeOne now v).id = v.id :=
  congrArg Prod.fst (completeOne_meta now v)

theorem getVolumes_readable_some (vs : List Volume) (cs : List ClaimRecord)
    (now : Int) :
    getVolumes (CacheState.readable vs) (some cs) now =
      vs.map (reconcileOne cs now) := by
  simp only [getVolumes, completeDue, List.map_map]
  rfl

theorem getVolumes_absent_some (cs : List ClaimRecord) (now : Int) :
    getVolumes CacheState.absent (some cs) now =
      INITIAL_VOLUMES.map (reconcileOne cs now) := by
  simp only [getVolumes, completeDue, List.map_map]
  rfl

theorem createSutraVolumes_length (startId subid part : Nat) (title : String)
    (scrolls : Nat) :
    (createSutraVolumes startId subid part title scrolls).length = scrolls := by
  simp [createSutraVolumes]

theorem INITIAL_VOLUMES_length : INITIAL_VOLUMES.length = 703 := by
  simp [INITIAL_VOLUMES, createSutraVolumes_length]

theorem createSutraVolumes_status (startId subid part : Nat) (title : String)
    (scrolls : Nat) :
    ∀ v ∈ createSutraVolumes startId subid part title scrolls,
      v.status = VolumeStatus.unclaimed := by
  intro v hv
  simp only [createSutraVolumes, List.mem_map] at hv
  obtain ⟨i, -, rfl⟩ := hv
  rfl

theorem INITIAL_VOLUMES_status :
    ∀ v ∈ INITIAL_VOLUMES, v.status = VolumeStatus.unclaimed := by
  intro v hv
  simp only [INITIAL_VOLUMES, List.mem_append] at hv
  rcases hv with ((((((((h | h) | h) | h) | h) | h) | h) | h) | h) <;>
    exact createSutraVolumes_status _ _ _ _ _ _ h

theorem completeOne_of_unclaimed (now : Int) (v : Volume)
    (h : v.status = VolumeStatus.unclaimed) : completeOne now v = v := by
  unfold completeOne
  rw [if_neg (by rw [h]; intro hc; cases hc)]

theorem completeDue_eq_self_of_unclaimed (now : Int) (l : List Volume)
    (h : ∀ v ∈ l, v.status = VolumeStatus.unclaimed) :
    completeDue now l = l := by
  unfold completeDue
  induction l with
  | nil => rfl
  | cons a t ih =>
      simp only [List.map_cons, List.cons.injEq]
      exact ⟨completeOne_of_unclaimed now a (h a (by simp)),
        ih fun v hv => h v (by simp [hv])⟩

/-- The auto-completion pass is the identity on the all-unclaimed
catalog. -/
theorem completeDue_INITIAL_VOLUMES (now : Int) :
    completeDue now INITIAL_VOLUMES = INITIAL_VOLUMES :=
  completeDue_eq_self_of_unclaimed now _ INITIAL_VOLUMES_status

theorem reconcileOne_meta (cs : List ClaimRecord) (now : Int) (v : Volume) :
    volumeMeta (reconcileOne cs now v) = volumeMeta v := by
  unfold reconcileOne
  rw [completeOne_meta, overlayOne_meta]

theorem reconcileOne_matched (cs : List ClaimRecord) (now : Int) (v : Volume)
    (c : ClaimRecord) (hcm : findClaim cs v.id = some c) :
    reconcileOne cs now v =
      completeOne now
        { v with
          status := VolumeStatus.claimed
          claimerName := some c.name
          claimerPhone := some c.phone
          plannedDays := c.plannedDays
          claimedAt := c.claimedAt
          expectedCompletionDate := c.expectedCompletionDate } := by
  unfold reconcileOne overlayOne
  rw [hcm]

theorem reconcileOne_unmatched (cs : List ClaimRecord) (now : Int) (v : Volume)
    (hcm : findClaim cs v.id = none) :
    reconcileOne cs now v = completeOne now v := by
  unfold reconcileOne overlayOne
  rw [hcm]

theorem completeOne_claimed (now : Int) (v : Volume)
    (h : v.status = VolumeStatus.claimed) :
    completeOne now v =
      match v.expectedCompletionDate with
      | some d =>
          if d ≤ now then { v with status := VolumeStatus.completed } else v
      | none => v := by
  unfold completeOne
  rw [if_pos h]

theorem reconcileOne_id (cs : List ClaimRecord) (now : Int) (v : Volume) :
    (reconcileOne cs now v).id = v.id :=
  congrArg Prod.fst (reconcileOne_meta cs now v)

theorem map_meta_reconcile (cs : List ClaimRecord) (now : Int) (l : List Volume) :
    (l.map (reconcileOne cs now)).map volumeMeta = l.map volumeMeta := by
  rw [List.map_map]
  exact List.map_congr_left fun v _ => reconcileOne_meta cs now v

theorem map_meta_completeDue (now : Int) (l : List Volume) :
    (completeDue now l).map volumeMeta = l.map volumeMeta := by
  unfold completeDue
  rw [List.map_map]
  exact List.map_congr_left fun v _ => completeOne_meta now v

/-- A cached entry with a stale `completed` status and no
`expectedCompletionDate`, used to exercise the passthrough behaviour of
the read path. -/
def staleVolume : Volume :=
  { id := "1001", volumeNumber := "第1部 卷1", volumeTitle := "stale title",
    status := VolumeStatus.completed, readingUrl := "u" }

/-- A cached single-entry list whose metadata differs from the catalog,
used to exercise the base-list behaviour of the read path. -/
def c4CachedVolume : Volume :=
  { id := "9999", volumeNumber := "cached number", volumeTitle := "cached title",
    status := VolumeStatus.unclaimed, readingUrl := "cached url" }

/-- A cached claimed entry, used to exercise the remote-failure
fallback path. -/
def c7CachedVolume : Volume :=
  { id := "42", volumeNumber := "n42", volumeTitle := "t42",
    status := VolumeStatus.claimed, claimerName := some "李四",
    claimerPhone := some "12345678", readingUrl := "u42" }

/-- Base volume and matching remote claim used to instantiate the
amended status-invariant theorem. -/
def c1wBase : Volume :=
  { id := "7", volumeNumber := "n7", volumeTitle := "t7",
    status := VolumeStatus.unclaimed, readingUrl := "u7" }

def c1wClaim : ClaimRecord :=
  { volumeId := "7", name := "张三", phone := "13800000000",
    plannedDays := some 7, claimedAt := some 0,
    expectedCompletionDate := some 5 }

end BookTracker

namespace BookTracker

/-- C1 counterexample: the claim as stated fails on the code.  With a
cached entry whose stored status is `completed` but which has no
`expectedCompletionDate`, the read operation returns it still marked
`completed` (the completion rule only upgrades `claimed` entries; it
never recomputes a stored `completed`), so `status = completed` does
not imply that `expectedCompletionDate` exists and has passed. -/
theorem getVolumes_status_invariant_counterexample :
    ¬ ∀ w ∈ getVolumes (CacheState.readable [staleVolume]) (some []) 0,
        w.status = VolumeStatus.completed → w.expectedCompletionDate ≠ none := by
  decide

/-- C1 amended: for every volume in the list returned by the read
operation that is matched by a remote claim record, the invariant
holds: `status = completed` iff the claim's `expectedCompletionDate`
exists and the evaluation time is at or past it, and otherwise the
status is `claimed` with the claimer fields populated from the claim.
A volume not matched by any remote claim is merely the base-list entry
passed through the completion upgrade (a stored status survives
un-recomputed, as the counterexample shows). -/
theorem getVolumes_status_invariant_amended (cache : CacheState)
    (cs : List ClaimRecord) (now : Int)
    (hc : cache ≠ CacheState.unreadable) :
    ∀ w ∈ getVolumes cache (some cs) now,
      (∀ c, findClaim cs w.id = some c →
          ((w.status = VolumeStatus.completed ↔
              ∃ d, c.expectedCompletionDate = some d ∧ d ≤ now) ∧
           (w.status ≠ VolumeStatus.completed →
              w.status = VolumeStatus.claimed ∧
              w.claimerName = some c.name ∧
              w.claimerPhone = some c.phone))) ∧
      (findClaim cs w.id = none → ∃ v ∈ baseOf cache, w = completeOne now v) := by
  have hbase : getVolumes cache (some cs) now =
      (baseOf cache).map (reconcileOne cs now) := by
    cases cache with
    | unreadable => exact absurd rfl hc
    | absent => exact getVolumes_absent_some cs now
    | readable vs => exact getVolumes_readable_some vs cs now
  rw [hbase]
  intro w hw
  obtain ⟨v, hv, rfl⟩ := List.mem_map.mp hw
  refine ⟨?_, ?_⟩
  · intro c hcm
    rw [reconcileOne_id] at hcm
    rw [reconcileOne_matched cs now v c hcm, completeOne_claimed now _ rfl]
    dsimp only
    cases hd : c.expectedCompletionDate with
    | none =>
        dsimp only
        refine ⟨⟨fun h => (nomatch h), ?_⟩, fun _ => ⟨rfl, rfl, rfl⟩⟩
        rintro ⟨d, hd', -⟩
        exact Option.noConfusion hd'
    | some d =>
        dsimp only
        by_cases hle : d ≤ now
        · rw [if_pos hle]
          exact ⟨⟨fun _ => ⟨d, rfl, hle⟩, fun _ => rfl⟩, fun h => absurd rfl h⟩
        · rw [if_neg hle]
          refine ⟨⟨fun h => (nomatch h), ?_⟩, fun _ => ⟨rfl, rfl, rfl⟩⟩
          rintro ⟨d', hd', hle'⟩
          obtain rfl : d = d' := Option.some.inj hd'
          exact absurd hle' hle
  · intro hnone
    rw [reconcileOne_id] at hnone
    exact ⟨v, hv, reconcileOne_unmatched cs now v hnone⟩

/-- Witness for the amended C1: a remote claim with deadline 5 read at
time 10 makes its volume `completed` in the returned list. -/
theorem getVolumes_status_invariant_amended_witness :
    (reconcileOne [c1wClaim] 10 c1wBase).status = VolumeStatus.completed := by
  have H := getVolumes_status_invariant_amended
    (CacheState.readable [c1wBase]) [c1wClaim] 10 (by decide)
  have hw : reconcileOne [c1wClaim] 10 c1wBase ∈
      getVolumes (CacheState.readable [c1wBase]) (some [c1wClaim]) 10 := by
    decide
  exact ((H _ hw).1 c1wClaim (by decide)).1.mpr ⟨5, by decide, by decide⟩

/-- C4 counterexample: the claim as stated fails on the code.  When a
readable cache exists the read operation's base list is the cache, not
the freshly regenerated catalog: a one-entry cache yields a one-entry
result, not one entry per catalog-defined volume. -/
theorem getVolumes_catalog_meta_counterexample :
    (getVolumes (CacheState.readable [c4CachedVolume]) (some []) 0).length ≠
      INITIAL_VOLUMES.length := by
  rw [INITIAL_VOLUMES_length]
  decide

/-- C4 amended: the returned list has exactly one entry per entry of
the *base list* — the cached list when a readable cache exists,
otherwise the freshly generated catalog — in base-list order, and each
entry's immutable metadata (id, number, title, readingUrl) comes from
the base list; neither the remote reply nor the status recomputation
can change the set, order or metadata of the returned entries.  Only
when no readable cache exists does the metadata come from the freshly
regenerated catalog. -/
theorem getVolumes_catalog_meta_amended (cache : CacheState)
    (remote : Option (List ClaimRecord)) (now : Int) :
    (getVolumes cache remote now).map volumeMeta =
      (baseOf cache).map volumeMeta := by
  cases cache with
  | unreadable => cases remote <;> rfl
  | absent =>
      cases remote with
      | some cs => rw [getVolumes_absent_some]; exact map_meta_reconcile cs now _
      | none => exact map_meta_completeDue now _
  | readable vs =>
      cases remote with
      | some cs => rw [getVolumes_readable_some]; exact map_meta_reconcile cs now vs
      | none => exact map_meta_completeDue now vs

/-- C7 counterexample: the claim as stated fails on the code.  With the
remote fetch failing and a readable one-entry cache, the read operation
returns the cached list itself (here a single claimed entry), not the
703-entry catalog with the cached claim overlaid. -/
theorem getVolumes_remote_failure_counterexample :
    getVolumes (CacheState.readable [c7CachedVolume]) none 0 = [c7CachedVolume] ∧
    (getVolumes (CacheState.readable [c7CachedVolume]) none 0).length ≠
      INITIAL_VOLUMES.length := by
  refine ⟨by decide, ?_⟩
  rw [INITIAL_VOLUMES_length]
  decide

/-- C7 amended: when the remote fetch fails and a readable cache
exists, the read operation returns the cached list itself, run through
the same status recomputation as the normal path (overdue `claimed`
entries upgraded to `completed`) — so cached claimed entries survive,
and no overlay onto a freshly regenerated catalog happens; when the
cache is absent or unreadable it returns the bare unclaimed catalog. -/
theorem getVolumes_remote_failure_amended (vs : List Volume) (now : Int) :
    getVolumes (CacheState.readable vs) none now = completeDue now vs ∧
    getVolumes CacheState.absent none now = INITIAL_VOLUMES ∧
    getVolumes CacheState.unreadable none now = INITIAL_VOLUMES :=
  ⟨rfl, completeDue_INITIAL_VOLUMES now, rfl⟩

end BookTracker

namespace BookTracker

/-- C3: a successful `dbService.claimVolume` with a valid `claimedAt`
wall-clock datetime and a positive `plannedDays` computes
`expectedCompletionDate` as exactly `plannedDays` calendar days after
`claimedAt` (iterated calendar successor), with the same wall-clock
time of day — calendar-day arithmetic, not elapsed seconds. -/
theorem claimVolume_expectedCompletion_addsCalendarDays
    (volumes : List Volume) (req : DbClaimRequest) (now : JSDateTime) (v : Volume)
    (hfind : volumes.find? (fun w => w.id == req.volumeId) = some v)
    (hstatus : v.status = VolumeStatus.unclaimed)
    (hpos : 0 < req.plannedDays)
    (hvalid : ValidDT now) :
    claimVolume volumes req now =
      ClaimVolumeResult.success now (addCalendarDays now req.plannedDays)
        req.name req.phone req.plannedDays := by
  unfold claimVolume
  rw [hfind]
  have hne : ¬ (v.status ≠ VolumeStatus.unclaimed) := by simp [hstatus]
  dsimp only
  rw [if_neg hne, if_neg (by omega : ¬ req.plannedDays = 0),
    jsSetDateAdd_eq_addCalendarDays now req.plannedDays hvalid]

/-- Witness for C3: claiming on 2024-12-30 at 12:34:56 with
`plannedDays = 3` yields an expected completion of 2025-01-02 at
12:34:56 — day D+3, same wall-clock time, across a month and year
boundary. -/
theorem claimVolume_expectedCompletion_addsCalendarDays_witness :
    claimVolume [c3Volume] c3Request c3Now =
      ClaimVolumeResult.success c3Now
        { year := 2025, month := 0, day := 2, msOfDay := 45296000 }
        "张三" "13800000000" 3 := by
  have h := claimVolume_expectedCompletion_addsCalendarDays
    [c3Volume] c3Request c3Now c3Volume (by decide) (by decide) (by decide) (by decide)
  exact h.trans (by decide)

end BookTracker

namespace BookTracker

/-! ## The `/api/claim` handler (`src/server.js`, lines 104–189)

Validation: `!name` → 400, `!phone` → 400, `!/^[0-9]{8,11}$/.test(phone)`
→ 400.  Then a pre-insert existence check against the `claims` table
(`409` when a row with the `volumeId` exists), then the insert, whose
uniqueness-constraint violation (`error.code === '23505'`) is also
surfaced as `409`.  On success the handler resets `sheetCache` before
responding.  An absent or empty request field is JS-falsy; both are
modelled through `Option String` with `none`/`""` falsy. -/

/-- JS falsiness of a possibly-absent string field. -/
def jsFalsyStr : Option String → Bool
  | none => true
  | some s => s.isEmpty

/-- `/^[0-9]{8,11}$/.test(phone)`: 8 to 11 decimal digits and nothing
else. -/
def phoneFormatOk (s : String) : Bool :=
  decide (8 ≤ s.length) && decide (s.length ≤ 11) &&
    s.data.all fun c => decide ('0' ≤ c) && decide (c ≤ '9')

/-- The request-body fields the `/api/claim` validation reads. -/
structure ApiClaimRequest where
  volumeId : String
  name : Option String
  phone : Option String
deriving DecidableEq, Repr

/-- Response classes of the `/api/claim` handler. -/
inductive ClaimResponse where
  | invalidArgument          -- HTTP 400
  | conflict                 -- HTTP 409
  | success                  -- HTTP 200 {success, claim}
deriving DecidableEq, Repr

/-- The `/api/claim` handler as a sequential (request-atomic) function
of the remote claim store, returning the response and the new store.
The store is abstracted to the set of `volumeId`s having a claim row —
the only part the existence check and the uniqueness constraint read.
Supabase is assumed configured and reachable (the 500 branches for a
missing client or a store error are outside the modelled behaviour). -/
def postClaim (store : List String) (req : ApiClaimRequest) :
    ClaimResponse × List String :=
  if jsFalsyStr req.name then (ClaimResponse.invalidArgument, store)
  else
    match req.phone with
    | none => (ClaimResponse.invalidArgument, store)
    | some p =>
        if p.isEmpty then (ClaimResponse.invalidArgument, store)
        else if !phoneFormatOk p then (ClaimResponse.invalidArgument, store)
        else if store.contains req.volumeId then (ClaimResponse.conflict, store)
        else (ClaimResponse.success, req.volumeId :: store)

/-- C8: the `/api/claim` handler answers 400 (InvalidArgument), writing
nothing to the claim store, exactly when the name is missing/empty or
the phone is not a string of 8–11 decimal digits; any request with a
non-empty name and an 8-to-11-digit phone passes validation. -/
theorem postClaim_invalidArgument_iff (store : List String)
    (req : ApiClaimRequest) :
    ((postClaim store req).1 = ClaimResponse.invalidArgument ↔
      (jsFalsyStr req.name = true ∨
        ∀ p, req.phone = some p → phoneFormatOk p = false)) ∧
    ((postClaim store req).1 = ClaimResponse.invalidArgument →
      (postClaim store req).2 = store) := by
  unfold postClaim
  by_cases hn : jsFalsyStr req.name = true
  · simp [hn]
  · rw [if_neg hn]
    cases hp : req.phone with
    | none => simp
    | some p =>
        dsimp only
        by_cases hpe : p.isEmpty = true
        · have hpf : phoneFormatOk p = false := by
            obtain rfl : p = "" := (String.isEmpty_iff p).mp hpe
            rfl
          simp [hpe, hn, hpf]
        · rw [if_neg hpe]
          by_cases hf : phoneFormatOk p = true
          · rw [if_neg (by simp [hf])]
            constructor
            · constructor
              · intro h
                split at h <;> simp_all
              · rintro (h | h)
                · exact absurd h hn
                · exact absurd hf (by simp [h p rfl])
            · intro h
              split at h <;> simp_all
          · have hf' : phoneFormatOk p = false := by
              cases hq : phoneFormatOk p
              · rfl
              · exact absurd hq hf
            rw [if_pos (by simp [hf'])]
            refine ⟨⟨fun _ => Or.inr ?_, fun _ => rfl⟩, fun _ => rfl⟩
            intro q hq
            cases hq
            exact hf'

/-- Witness for C8: a request with a non-empty name and an 11-digit
phone is not rejected with InvalidArgument. -/
theorem postClaim_invalidArgument_iff_witness :
    (postClaim []
        { volumeId := "1001", name := some "张三",
          phone := some "13800000000" }).1 ≠ ClaimResponse.invalidArgument := by
  intro hc
  rcases (postClaim_invalidArgument_iff []
      { volumeId := "1001", name := some "张三",
        phone := some "13800000000" }).1.mp hc with h1 | h2
  · exact absurd h1 (by decide)
  · exact absurd (h2 "13800000000" rfl) (by decide)

/-! ## At-most-one-claim under concurrent `/api/claim` requests

The handler serialises nothing itself: it does an existence check, then
an insert whose uniqueness constraint is the authoritative conflict
signal.  Two requests for the same `volumeId` may interleave their
check and insert steps arbitrarily; the store (the `claims` table with
its unique `volumeId` constraint) is the serialisation point.  Each
request is a two-step process: `start` (the pre-insert existence
check, answering 409 when a row exists) and `checked` (the insert,
which fails with the `23505` uniqueness violation — surfaced as 409 —
when a row exists, and otherwise atomically inserts the row). -/

/-- Progress of one in-flight `/api/claim` request:
`done true` = responded 200 success, `done false` = responded 409
Conflict. -/
inductive ReqPhase where
  | start
  | checked
  | done (success : Bool)
deriving DecidableEq, Repr

/-- One atomic step of one request against the shared store. -/
def stepClaim (vid : String) (store : List String) :
    ReqPhase → List String × ReqPhase
  | ReqPhase.start =>
      if vid ∈ store then (store, ReqPhase.done false)
      else (store, ReqPhase.checked)
  | ReqPhase.checked =>
      if vid ∈ store then (store, ReqPhase.done false)
      else (vid :: store, ReqPhase.done true)
  | ReqPhase.done b => (store, ReqPhase.done b)

/-- Shared store plus the phases of two concurrent requests carrying
the same `volumeId`. -/
structure TwoClaimState where
  store : List String
  p1 : ReqPhase
  p2 : ReqPhase
deriving DecidableEq, Repr

/-- Let request 1 (`true`) or request 2 (`false`) take its next step. -/
def stepSys (vid : String) (s : TwoClaimState) (which : Bool) : TwoClaimState :=
  if which then
    { store := (stepClaim vid s.store s.p1).1,
      p1 := (stepClaim vid s.store s.p1).2, p2 := s.p2 }
  else
    { store := (stepClaim vid s.store s.p2).1,
      p1 := s.p1, p2 := (stepClaim vid s.store s.p2).2 }

/-- Run an arbitrary interleaving of the two requests' steps. -/
def runSys (vid : String) (sched : List Bool) (s : TwoClaimState) :
    TwoClaimState :=
  match sched with
  | [] => s
  | b :: rest => runSys vid rest (stepSys vid s b)

theorem stepClaim_start_mem (vid : String) (store : List String)
    (h : vid ∈ store) :
    stepClaim vid store ReqPhase.start = (store, ReqPhase.done false) := by
  simp [stepClaim, h]

theorem stepClaim_start_not_mem (vid : String) (store : List String)
    (h : vid ∉ store) :
    stepClaim vid store ReqPhase.start = (store, ReqPhase.checked) := by
  simp [stepClaim, h]

theorem stepClaim_checked_mem (vid : String) (store : List String)
    (h : vid ∈ store) :
    stepClaim vid store ReqPhase.checked = (store, ReqPhase.done false) := by
  simp [stepClaim, h]

theorem stepClaim_checked_not_mem (vid : String) (store : List String)
    (h : vid ∉ store) :
    stepClaim vid store ReqPhase.checked =
      (vid :: store, ReqPhase.done true) := by
  simp [stepClaim, h]

theorem stepClaim_done (vid : String) (store : List String) (b : Bool) :
    stepClaim vid store (ReqPhase.done b) = (store, ReqPhase.done b) := rfl

theorem stepClaim_store_of_conflict (vid : String) (store : List String)
    (p : ReqPhase) (hp : p ≠ ReqPhase.done true)
    (h : (stepClaim vid store p).2 = ReqPhase.done false) :
    (stepClaim vid store p).1 = store := by
  cases p with
  | start =>
      by_cases hc : vid ∈ store
      · rw [stepClaim_start_mem vid store hc]
      · rw [stepClaim_start_not_mem vid store hc]
  | checked =>
      by_cases hc : vid ∈ store
      · rw [stepClaim_checked_mem vid store hc]
      · rw [stepClaim_checked_not_mem vid store hc] at h
        exact absurd h (by simp)
  | done b => rfl

/-- Inductive invariant: a successful response implies the row is in
the store, and the two requests never both succeed. -/
def ClaimInv (vid : String) (s : TwoClaimState) : Prop :=
  (s.p1 = ReqPhase.done true → vid ∈ s.store) ∧
  (s.p2 = ReqPhase.done true → vid ∈ s.store) ∧
  ¬(s.p1 = ReqPhase.done true ∧ s.p2 = ReqPhase.done true)

/-- Invariant preservation for a step of either request.  The two
requests are symmetric; the proof does the case analysis on the phase
of the stepping request and on membership of the `volumeId`. -/
theorem stepSys_preserves (vid : String) (s : TwoClaimState) (b : Bool)
    (h : ClaimInv vid s) : ClaimInv vid (stepSys vid s b) := by
  obtain ⟨h1, h2, h12⟩ := h
  cases b
  · rw [show stepSys vid s false =
        { store := (stepClaim vid s.store s.p2).1,
          p1 := s.p1, p2 := (stepClaim vid s.store s.p2).2 } from rfl]
    cases hp : s.p2 with
    | start =>
        by_cases hc : vid ∈ s.store
        · rw [stepClaim_start_mem vid s.store hc]
          exact ⟨fun _ => hc, fun hd => (nomatch hd), fun hd => (nomatch hd.2)⟩
        · rw [stepClaim_start_not_mem vid s.store hc]
          exact ⟨fun hd => h1 hd, fun hd => (nomatch hd), fun hd => (nomatch hd.2)⟩
    | checked =>
        by_cases hc : vid ∈ s.store
        · rw [stepClaim_checked_mem vid s.store hc]
          exact ⟨fun _ => hc, fun hd => (nomatch hd), fun hd => (nomatch hd.2)⟩
        · rw [stepClaim_checked_not_mem vid s.store hc]
          refine ⟨fun hd => absurd (h1 hd) hc, fun _ => List.mem_cons_self vid _,
            fun hd => absurd (h1 hd.1) hc⟩
    | done b2 =>
        rw [stepClaim_done]
        exact ⟨fun hd => h1 hd, fun hd => h2 (hp ▸ hd),
          fun hd => h12 ⟨hd.1, hp ▸ hd.2⟩⟩
  · rw [show stepSys vid s true =
        { store := (stepClaim vid s.store s.p1).1,
          p1 := (stepClaim vid s.store s.p1).2, p2 := s.p2 } from rfl]
    cases hp : s.p1 with
    | start =>
        by_cases hc : vid ∈ s.store
        · rw [stepClaim_start_mem vid s.store hc]
          exact ⟨fun hd => (nomatch hd), fun _ => hc, fun hd => (nomatch hd.1)⟩
        · rw [stepClaim_start_not_mem vid s.store hc]
          exact ⟨fun hd => (nomatch hd), fun hd => h2 hd, fun hd => (nomatch hd.1)⟩
    | checked =>
        by_cases hc : vid ∈ s.store
        · rw [stepClaim_checked_mem vid s.store hc]
          exact ⟨fun hd => (nomatch hd), fun _ => hc, fun hd => (nomatch hd.1)⟩
        · rw [stepClaim_checked_not_mem vid s.store hc]
          refine ⟨fun _ => List.mem_cons_self vid _, fun hd => absurd (h2 hd) hc,
            fun hd => absurd (h2 hd.2) hc⟩
    | done b1 =>
        rw [stepClaim_done]
        exact ⟨fun hd => h1 (hp ▸ hd), fun hd => h2 hd,
          fun hd => h12 ⟨hp ▸ hd.1, hd.2⟩⟩

theorem runSys_preserves (vid : String) (sched : List Bool)
    (s : TwoClaimState) (h : ClaimInv vid s) :
    ClaimInv vid (runSys vid sched s) := by
  induction sched generalizing s with
  | nil => exact h
  | cons b rest ih => exact ih _ (stepSys_preserves vid s b h)

/-- Inductive invariant for the pre-existing-claim case: nothing
succeeds and the store never changes. -/
def ClaimInvExisting (_vid : String) (s0 : List String) (s : TwoClaimState) :
    Prop :=
  s.store = s0 ∧ s.p1 ≠ ReqPhase.done true ∧ s.p2 ≠ ReqPhase.done true

theorem stepClaim_existing (vid : String) (s0 : List String)
    (hvid : vid ∈ s0) (p : ReqPhase) (hp : p ≠ ReqPhase.done true) :
    (stepClaim vid s0 p).1 = s0 ∧ (stepClaim vid s0 p).2 ≠ ReqPhase.done true := by
  cases p with
  | start => rw [stepClaim_start_mem vid s0 hvid]; exact ⟨rfl, (by simp)⟩
  | checked => rw [stepClaim_checked_mem vid s0 hvid]; exact ⟨rfl, (by simp)⟩
  | done b => exact ⟨rfl, hp⟩

theorem stepSys_preserves_existing (vid : String) (s0 : List String)
    (hvid : vid ∈ s0) (s : TwoClaimState) (b : Bool)
    (h : ClaimInvExisting vid s0 s) :
    ClaimInvExisting vid s0 (stepSys vid s b) := by
  obtain ⟨hs, h1, h2⟩ := h
  subst hs
  cases b
  · obtain ⟨ha, hb⟩ := stepClaim_existing vid s.store hvid s.p2 h2
    exact ⟨ha, h1, hb⟩
  · obtain ⟨ha, hb⟩ := stepClaim_existing vid s.store hvid s.p1 h1
    exact ⟨ha, hb, h2⟩

theorem runSys_preserves_existing (vid : String) (s0 : List String)
    (hvid : vid ∈ s0) (sched : List Bool) (s : TwoClaimState)
    (h : ClaimInvExisting vid s0 s) :
    ClaimInvExisting vid s0 (runSys vid sched s) := by
  induction sched generalizing s with
  | nil => exact h
  | cons b rest ih =>
      exact ih _ (stepSys_preserves_existing vid s0 hvid s b h)

/-- C2: under any interleaving of two `/api/claim` requests carrying
the same `volumeId`, the two requests never both succeed; when a claim
row for that `volumeId` already exists, both requests answer Conflict
(never success) and the store is left unchanged; and any step that
answers Conflict — whether from the pre-insert existence check or from
the insert's uniqueness-constraint violation — leaves the store
unchanged.  Every request ends in a success or conflict response; no
interleaving crashes the handler. -/
theorem postClaim_at_most_one_success (vid : String) (s0 : List String)
    (sched : List Bool) :
    (¬((runSys vid sched ⟨s0, ReqPhase.start, ReqPhase.start⟩).p1 =
          ReqPhase.done true ∧
       (runSys vid sched ⟨s0, ReqPhase.start, ReqPhase.start⟩).p2 =
          ReqPhase.done true)) ∧
    (vid ∈ s0 →
      (runSys vid sched ⟨s0, ReqPhase.start, ReqPhase.start⟩).store = s0 ∧
      (runSys vid sched ⟨s0, ReqPhase.start, ReqPhase.start⟩).p1 ≠
        ReqPhase.done true ∧
      (runSys vid sched ⟨s0, ReqPhase.start, ReqPhase.start⟩).p2 ≠
        ReqPhase.done true) ∧
    (∀ store p, p ≠ ReqPhase.done true →
      (stepClaim vid store p).2 = ReqPhase.done false →
      (stepClaim vid store p).1 = store) := by
  refine ⟨?_, ?_, fun store p => stepClaim_store_of_conflict vid store p⟩
  · exact (runSys_preserves vid sched _
      ⟨fun h => (by simp at h), fun h => (by simp at h),
        fun h => (by simp at h)⟩).2.2
  · intro hvid
    exact runSys_preserves_existing vid s0 hvid sched _ ⟨rfl, (by simp), (by simp)⟩

/-- Witness for C2: with an empty store and the interleaving
"request 1 checks, request 2 checks, request 1 inserts, request 2
inserts" (the check-then-insert race), request 1 succeeds and request
2 gets Conflict from the uniqueness violation; they do not both
succeed. -/
theorem postClaim_at_most_one_success_witness :
    runSys "1001" [true, false, true, false]
        ⟨[], ReqPhase.start, ReqPhase.start⟩ =
      ⟨["1001"], ReqPhase.done true, ReqPhase.done false⟩ ∧
    ¬((runSys "1001" [true, false, true, false]
          ⟨[], ReqPhase.start, ReqPhase.start⟩).p1 = ReqPhase.done true ∧
      (runSys "1001" [true, false, true, false]
          ⟨[], ReqPhase.start, ReqPhase.start⟩).p2 = ReqPhase.done true) :=
  ⟨by decide,
    (postClaim_at_most_one_success "1001" [] [true, false, true, false]).1⟩

/-! ## The `/api/claims` listing cache (`src/server.js`, lines 90-91,
178-179, 192-234)

`sheetCache` holds the last listing fetched from the store with its
timestamp (`CACHE_DURATION` = one minute).  A GET serves the cache when
it is fresh and `?fresh=1` was not passed; otherwise it dispatches the
Supabase select and suspends at the `await`, and only on resumption
refills the cache - with the timestamp captured at handler entry - and
responds; on a fetch error it serves the cached data when present and
errors otherwise.  A successful `/api/claim` write resets `sheetCache`
to `{data: null, timestamp: 0}` before responding.

The model therefore splits a cache-missing GET into two events: the
fetch dispatch (`getStart`, which records the rows the select
observes) and the fetch completion (`getFinish`, which refills the
cache and responds), so a claim write can interleave between them.  A
successful write - the remote insert plus the synchronous cache reset
that follows its `await` - is one event, and a fetch observes the
store at dispatch: the linearisation that exhibits the stale refill
the suspension admits. -/

def CACHE_DURATION : Int := 60000

/-- `sheetCache = {data, timestamp}`. -/
structure SheetCache where
  data : Option (List String)
  timestamp : Int
deriving DecidableEq, Repr

/-- A GET `/api/claims` fetch suspended at its `await`: the
handler-entry time `now` (stored as the refill timestamp) and the rows
its select observed. -/
structure PendingFetch where
  now : Int
  snapshot : List String
deriving DecidableEq, Repr

/-- Server state: the remote claim store (abstracted to its rows), the
process-local `sheetCache`, and the fetches in flight. -/
structure SrvState where
  store : List String
  cache : SheetCache
  pending : List PendingFetch
deriving DecidableEq, Repr

/-- Events of a server execution: a successful claim write; the start
of a GET `/api/claims` at time `now` with the `?fresh=1` flag; the
completion (index `i` into the in-flight list) of a fetch, with the
outcome of its Supabase select. -/
inductive SrvEvent where
  | postSuccess (vid : String)
  | getStart (now : Int) (fresh : Bool)
  | getFinish (i : Nat) (ok : Bool)
deriving DecidableEq, Repr

/-- The cache-hit test of the GET handler:
`!skipCache && sheetCache.data && (now - sheetCache.timestamp) < CACHE_DURATION`. -/
def cacheHit (s : SrvState) (now : Int) (fresh : Bool) : Bool :=
  !fresh && s.cache.data.isSome && decide (now - s.cache.timestamp < CACHE_DURATION)

/-- One event: the new state and the response the event emits, if any.
`none`: no response (a cache-missing `getStart` suspends); `some (some d)`:
a 200 serving listing `d`; `some none`: the 500 of the error path with
no cached fallback.  A successful claim write inserts the row and
synchronously resets `sheetCache` to `{data: null, timestamp: 0}`
before its response; a cache hit answers from the cache at once; a miss
dispatches a fetch; a completing fetch refills the cache from its
observed rows and serves them, or on error serves the cached data when
present. -/
def stepSrv (s : SrvState) : SrvEvent → SrvState × Option (Option (List String))
  | SrvEvent.postSuccess vid =>
      ({ store := vid :: s.store, cache := ⟨none, 0⟩, pending := s.pending }, none)
  | SrvEvent.getStart now fresh =>
      if cacheHit s now fresh then (s, some s.cache.data)
      else ({ s with pending := s.pending ++ [⟨now, s.store⟩] }, none)
  | SrvEvent.getFinish i ok =>
      match s.pending[i]? with
      | none => (s, none)
      | some p =>
          if ok then
            ({ s with cache := ⟨some p.snapshot, p.now⟩,
                      pending := s.pending.eraseIdx i }, some (some p.snapshot))
          else
            ({ s with pending := s.pending.eraseIdx i }, some s.cache.data)

def runSrv (s : SrvState) : List SrvEvent → SrvState
  | [] => s
  | e :: es => runSrv (stepSrv s e).1 es

/-- The listing responses an event sequence emits, in order. -/
def srvResponses (s : SrvState) : List SrvEvent → List (Option (List String))
  | [] => []
  | e :: es =>
      match (stepSrv s e).2 with
      | none => srvResponses (stepSrv s e).1 es
      | some r => r :: srvResponses (stepSrv s e).1 es

/-- Invariant carried from a claim write onwards: the claim is in the
store, in any cached listing, and in every in-flight fetch's observed
rows. -/
def ClaimSeen (vid : String) (s : SrvState) : Prop :=
  vid ∈ s.store ∧ (∀ d, s.cache.data = some d → vid ∈ d) ∧
    (∀ p ∈ s.pending, vid ∈ p.snapshot)

theorem stepSrv_preserves_seen (vid : String) (s : SrvState) (e : SrvEvent)
    (h : ClaimSeen vid s) : ClaimSeen vid (stepSrv s e).1 := by
  obtain ⟨h1, h2, h3⟩ := h
  cases e with
  | postSuccess w =>
      exact ⟨List.mem_cons_of_mem _ h1, fun d hd => (by cases hd), h3⟩
  | getStart now fresh =>
      unfold stepSrv
      dsimp only
      by_cases hh : cacheHit s now fresh = true
      · rw [if_pos hh]; exact ⟨h1, h2, h3⟩
      · rw [if_neg hh]
        refine ⟨h1, h2, ?_⟩
        intro p hp
        rcases List.mem_append.mp hp with hp | hp
        · exact h3 p hp
        · rw [List.mem_singleton.mp hp]
          exact h1
  | getFinish i ok =>
      unfold stepSrv
      dsimp only
      cases hq : s.pending[i]? with
      | none => exact ⟨h1, h2, h3⟩
      | some p =>
          have hpm : p ∈ s.pending := List.getElem?_mem hq
          have herase : ∀ q ∈ s.pending.eraseIdx i, q ∈ s.pending :=
            fun q hq2 => (List.eraseIdx_sublist s.pending i).subset hq2
          cases ok
          · dsimp only
            rw [if_neg (by simp)]
            exact ⟨h1, h2, fun q hq2 => h3 q (herase q hq2)⟩
          · dsimp only
            rw [if_pos rfl]
            refine ⟨h1, ?_, fun q hq2 => h3 q (herase q hq2)⟩
            intro d hd
            cases hd
            exact h3 p hpm

theorem stepSrv_resp_seen (vid : String) (s : SrvState) (e : SrvEvent)
    (h : ClaimSeen vid s) (r : Option (List String))
    (hr : (stepSrv s e).2 = some r) : ∀ d, r = some d → vid ∈ d := by
  obtain ⟨h1, h2, h3⟩ := h
  cases e with
  | postSuccess w => cases hr
  | getStart now fresh =>
      unfold stepSrv at hr
      dsimp only at hr
      by_cases hh : cacheHit s now fresh = true
      · rw [if_pos hh] at hr
        have hr2 : s.cache.data = r := Option.some.inj hr
        intro d hd
        exact h2 d (hr2.trans hd)
      · rw [if_neg hh] at hr
        cases hr
  | getFinish i ok =>
      unfold stepSrv at hr
      dsimp only at hr
      cases hq : s.pending[i]? with
      | none => rw [hq] at hr; cases hr
      | some p =>
          have hpm : p ∈ s.pending := List.getElem?_mem hq
          rw [hq] at hr
          dsimp only at hr
          cases ok
          · rw [if_neg (by simp)] at hr
            have hr2 : s.cache.data = r := Option.some.inj hr
            intro d hd
            exact h2 d (hr2.trans hd)
          · rw [if_pos rfl] at hr
            have hr2 : some p.snapshot = r := Option.some.inj hr
            intro d hd
            exact Option.some.inj (hr2.trans hd) ▸ h3 p hpm

theorem srvResponses_seen (vid : String) (s : SrvState) (evs : List SrvEvent)
    (h : ClaimSeen vid s) :
    ∀ r ∈ srvResponses s evs, ∀ d, r = some d → vid ∈ d := by
  induction evs generalizing s with
  | nil => intro r hr; cases hr
  | cons e es ih =>
      intro r hr
      unfold srvResponses at hr
      cases hre : (stepSrv s e).2 with
      | none =>
          rw [hre] at hr
          exact ih _ (stepSrv_preserves_seen vid s e h) r hr
      | some r0 =>
          rw [hre] at hr
          dsimp only at hr
          rcases List.mem_cons.mp hr with rfl | hr
          · exact stepSrv_resp_seen vid s e h r hre
          · exact ih _ (stepSrv_preserves_seen vid s e h) r hr

/-- C9 counterexample: the GET handler suspends at the `await` between
the cache check and the cache refill, so a fetch dispatched before a
successful claim write can refill `sheetCache` with pre-claim data
after the write's reset.  Concretely, from a fresh process: a GET
dispatches its fetch observing the empty listing; the claim `"1001"`
is then written (resetting the cache); the fetch completes, re-filling
the cache with the pre-claim listing and serving it; a second GET one
second later hits the cache and also serves the pre-claim listing -
both GETs subsequent to the write serve data captured before it, which
the claim's universal guarantee forbids. -/
theorem postClaim_cache_invalidation_counterexample :
    srvResponses ⟨[], ⟨none, 0⟩, []⟩
      [SrvEvent.getStart 0 false, SrvEvent.postSuccess "1001",
       SrvEvent.getFinish 0 true, SrvEvent.getStart 1000 false]
      = [some [], some []] ∧
    (runSrv ⟨[], ⟨none, 0⟩, []⟩
      [SrvEvent.getStart 0 false, SrvEvent.postSuccess "1001",
       SrvEvent.getFinish 0 true, SrvEvent.getStart 1000 false]).store
      = ["1001"] ∧
    "1001" ∉ ([] : List String) := by decide

/-- C9 amended: a successful claim write still resets `sheetCache` to
`{data: null, timestamp: 0}` synchronously before its response is
sent; and provided no GET `/api/claims` fetch is suspended at its
`await` when the write completes, every listing any later GET serves -
from a fresh fetch, from the cache, or from the error path's cached
fallback - contains the new claim.  The proviso is necessary: with a
fetch in flight across the write, its completion re-fills the cache
with pre-claim data after the reset (the counterexample), so the
original unconditional guarantee fails. -/
theorem postClaim_cache_invalidation_amended (s : SrvState) (vid : String)
    (hp : s.pending = []) (evs : List SrvEvent) :
    (stepSrv s (SrvEvent.postSuccess vid)).1.cache = ⟨none, 0⟩ ∧
    ∀ r ∈ srvResponses (stepSrv s (SrvEvent.postSuccess vid)).1 evs,
      ∀ d, r = some d → vid ∈ d := by
  refine ⟨rfl, ?_⟩
  apply srvResponses_seen
  refine ⟨List.mem_cons_self _ _, fun d hd => (by cases hd), ?_⟩
  intro p hp2
  rw [show (stepSrv s (SrvEvent.postSuccess vid)).1.pending = s.pending from rfl,
    hp] at hp2
  cases hp2

/-- Witness for the amended C9: a claim written with no fetch in
flight; the following GET misses the reset cache, fetches, refills and
serves the post-claim listing, and a later GET hits that cache - every
response contains the claim. -/
theorem postClaim_cache_invalidation_amended_witness :
    ((⟨["0007"], ⟨some ["0007"], 0⟩, []⟩ : SrvState).pending = []) ∧
    (∀ r ∈ srvResponses
        (stepSrv (⟨["0007"], ⟨some ["0007"], 0⟩, []⟩ : SrvState)
          (SrvEvent.postSuccess "1001")).1
        [SrvEvent.getStart 5 false, SrvEvent.getFinish 0 true,
         SrvEvent.getStart 1000 false],
      ∀ d, r = some d → "1001" ∈ d) :=
  ⟨rfl, (postClaim_cache_invalidation_amended
    (⟨["0007"], ⟨some ["0007"], 0⟩, []⟩ : SrvState) "1001" rfl
    [SrvEvent.getStart 5 false, SrvEvent.getFinish 0 true,
     SrvEvent.getStart 1000 false]).2⟩

end BookTracker

namespace BookTracker

/-! ## Scroll-parameter validation of the `/api/scripture` endpoints
(`src/server.js`, lines 490–497, 537–543, 602–608)

Each of the three handlers begins with
`const scroll = parseInt(req.params.scroll);` and
`if (isNaN(scroll) || scroll < 1 || scroll > 200) return 400;` and
otherwise computes `const bookId = 2069 + scroll;` before any upstream
request.  `parseInt` is modelled with JavaScript semantics: leading
whitespace skipped, optional sign, an optional `0x`/`0X` hex prefix,
then the longest digit prefix (trailing garbage ignored), NaN when no
digit is found. -/

/-- JavaScript WhiteSpace ∪ LineTerminator — the set skipped by
`parseInt`, matched by `\s`, and removed by `String.prototype.trim`. -/
def isJsSpace (c : Char) : Bool :=
  c == ' ' || c == '\t' || c == '\n' || c == '\r' ||
  c == Char.ofNat 11 || c == Char.ofNat 12 || c == Char.ofNat 160 ||
  c == Char.ofNat 0x1680 ||
  (decide (0x2000 ≤ c.toNat) && decide (c.toNat ≤ 0x200A)) ||
  c == Char.ofNat 0x2028 || c == Char.ofNat 0x2029 ||
  c == Char.ofNat 0x202F || c == Char.ofNat 0x205F ||
  c == Char.ofNat 0x3000 || c == Char.ofNat 0xFEFF

def decDigit? (c : Char) : Option Nat :=
  if '0' ≤ c ∧ c ≤ '9' then some (c.toNat - 48) else none

def hexDigit? (c : Char) : Option Nat :=
  if '0' ≤ c ∧ c ≤ '9' then some (c.toNat - 48)
  else if 'a' ≤ c ∧ c ≤ 'f' then some (c.toNat - 87)
  else if 'A' ≤ c ∧ c ≤ 'F' then some (c.toNat - 55)
  else none

def parseDigitsGo (digit? : Char → Option Nat) (base : Nat) :
    List Char → Nat → Nat
  | [], acc => acc
  | c :: rest, acc =>
      match digit? c with
      | some v => parseDigitsGo digit? base rest (acc * base + v)
      | none => acc

/-- Longest digit prefix under the given digit alphabet; `none` when
the first character is not a digit (the NaN case). -/
def parseDigits (digit? : Char → Option Nat) (base : Nat) :
    List Char → Option Nat
  | [] => none
  | c :: rest =>
      match digit? c with
      | some v => some (parseDigitsGo digit? base rest v)
      | none => none

def jsParseIntBody (cs : List Char) : Option Nat :=
  match cs with
  | '0' :: 'x' :: r => parseDigits hexDigit? 16 r
  | '0' :: 'X' :: r => parseDigits hexDigit? 16 r
  | _ => parseDigits decDigit? 10 cs

/-- `parseInt(s)` with no radix argument; `none` is NaN. -/
def jsParseInt (s : String) : Option Int :=
  let cs := s.data.dropWhile isJsSpace
  match cs with
  | '-' :: r => (jsParseIntBody r).map fun n => -(n : Int)
  | '+' :: r => (jsParseIntBody r).map fun n => (n : Int)
  | _ => (jsParseIntBody cs).map fun n => (n : Int)

/-- Outcome of the shared scroll guard: an immediate 400 with no
upstream request, or continuation with the upstream book id. -/
inductive ScriptureRoute where
  | badRequest
  | proceed (bookId : Int)
deriving DecidableEq, Repr

/-- `GET /api/scripture/:scroll` guard (lines 491–496). -/
def scriptureHtmlRoute (scroll : String) : ScriptureRoute :=
  match jsParseInt scroll with
  | none => ScriptureRoute.badRequest
  | some n =>
      if n < 1 ∨ n > 200 then ScriptureRoute.badRequest
      else ScriptureRoute.proceed (2069 + n)

/-- `GET /api/scripture/:scroll/txt` guard (lines 538–543). -/
def scriptureTxtRoute (scroll : String) : ScriptureRoute :=
  match jsParseInt scroll with
  | none => ScriptureRoute.badRequest
  | some n =>
      if n < 1 ∨ n > 200 then ScriptureRoute.badRequest
      else ScriptureRoute.proceed (2069 + n)

/-- `GET /api/scripture/:scroll/pdf` guard (lines 603–608). -/
def scripturePdfRoute (scroll : String) : ScriptureRoute :=
  match jsParseInt scroll with
  | none => ScriptureRoute.badRequest
  | some n =>
      if n < 1 ∨ n > 200 then ScriptureRoute.badRequest
      else ScriptureRoute.proceed (2069 + n)

/-- C10: each of the three scripture endpoints returns 400 — before
contacting the upstream source — exactly when `parseInt` of the scroll
parameter is NaN or out of the range 1..200, and otherwise proceeds
with upstream book id `2069 + scroll`; the three guards are
identical. -/
theorem scripture_scroll_validation (p : String) :
    (scriptureHtmlRoute p = ScriptureRoute.badRequest ↔
      jsParseInt p = none ∨ ∃ n, jsParseInt p = some n ∧ (n < 1 ∨ 200 < n)) ∧
    (∀ n, jsParseInt p = some n → 1 ≤ n → n ≤ 200 →
      scriptureHtmlRoute p = ScriptureRoute.proceed (2069 + n)) ∧
    scriptureTxtRoute p = scriptureHtmlRoute p ∧
    scripturePdfRoute p = scriptureHtmlRoute p := by
  refine ⟨?_, ?_, rfl, rfl⟩
  · unfold scriptureHtmlRoute
    cases hp : jsParseInt p with
    | none => simp
    | some n =>
        dsimp only
        by_cases hb : n < 1 ∨ n > 200
        · rw [if_pos hb]
          simp only [true_iff]
          exact Or.inr ⟨n, rfl, hb⟩
        · rw [if_neg hb]
          constructor
          · intro h; cases h
          · rintro (h | ⟨m, hm, hmb⟩)
            · cases h
            · obtain rfl : n = m := Option.some.inj hm
              exact absurd hmb hb
  · intro n hn h1 h2
    unfold scriptureHtmlRoute
    rw [hn]
    dsimp only
    rw [if_neg (by omega)]

/-- Witness for C10: `parseInt("12abc")` is 12 (trailing garbage
ignored), which is in range, so the endpoint proceeds with book id
2081. -/
theorem scripture_scroll_validation_witness :
    jsParseInt "12abc" = some 12 ∧
    scriptureHtmlRoute "12abc" = ScriptureRoute.proceed 2081 := by
  refine ⟨by decide, ?_⟩
  have h := (scripture_scroll_validation "12abc").2.1 12 (by decide)
    (by decide) (by decide)
  exact h.trans (by norm_num)

end BookTracker

namespace BookTracker

/-! ## JavaScript `String.replace(regex-with-g, repl)` scanner

All the text transforms in `src/server.js` are global regex
replacements whose patterns are concatenations of literals (matched
case-insensitively under the `i` flag) and the character classes
`[^<]*`, `[^>]*`, `[\s\S]*?`, `[ \t]+`, `\n{3,}`, `\s*`, for which the
regex engine is deterministic: no backtracking can change the result.
Each pattern is thus modelled by a matcher
`tryM : List Char → Option (List Char × List Char)` returning the
replacement text and the remainder after the match.  The generic
scanner walks the string left to right, replaces each match, resumes
after it (never rescanning the replacement — exactly JS `replace`
semantics), and copies unmatched characters.  All matches of the
patterns used here consume at least one character. -/

/-- ASCII case-insensitive character comparison — what the regex `i`
flag does on the ASCII pattern literals in the source. -/
def ciEq (a b : Char) : Bool :=
  a == b ||
  (65 ≤ a.toNat && a.toNat ≤ 90 && b.toNat == a.toNat + 32) ||
  (65 ≤ b.toNat && b.toNat ≤ 90 && a.toNat == b.toNat + 32)

/-- Match a pattern literal case-insensitively; returns the remainder. -/
def matchCI : List Char → List Char → Option (List Char)
  | [], s => some s
  | _ :: _, [] => none
  | p :: ps, c :: cs => if ciEq p c then matchCI ps cs else none

/-- Match a pattern literal exactly (for the case-sensitive entity
replacements); returns the remainder. -/
def matchLit : List Char → List Char → Option (List Char)
  | [], s => some s
  | _ :: _, [] => none
  | p :: ps, c :: cs => if p == c then matchLit ps cs else none

/-- The scanner core.  `skip` counts characters still inside the last
match (already consumed and replaced); at `skip = 0` the matcher is
tried at the current position. -/
def scanAux (tryM : List Char → Option (List Char × List Char)) :
    List Char → Nat → List Char
  | [], _ => []
  | _ :: cs, Nat.succ skip => scanAux tryM cs skip
  | c :: cs, 0 =>
      match tryM (c :: cs) with
      | some (r, rest) =>
          r ++ scanAux tryM cs ((c :: cs).length - rest.length - 1)
      | none => c :: scanAux tryM cs 0

/-- `input.replace(pattern, repl)` with the `g` flag, for a pattern
modelled by `tryM`. -/
def jsReplaceAll (tryM : List Char → Option (List Char × List Char))
    (s : List Char) : List Char :=
  scanAux tryM s 0

theorem scanAux_skip (tryM : List Char → Option (List Char × List Char))
    (pre : List Char) (s : List Char) :
    scanAux tryM (pre ++ s) pre.length = scanAux tryM s 0 := by
  induction pre with
  | nil => rfl
  | cons p ps ih =>
      show scanAux tryM (ps ++ s) ps.length = scanAux tryM s 0
      exact ih

/-- Scanner step on a successful match: emit the replacement and
resume after the matched text. -/
theorem jsReplaceAll_match (tryM : List Char → Option (List Char × List Char))
    (m r s : List Char) (hm : m ≠ [])
    (h : tryM (m ++ s) = some (r, s)) :
    jsReplaceAll tryM (m ++ s) = r ++ jsReplaceAll tryM s := by
  cases m with
  | nil => exact absurd rfl hm
  | cons mh mt =>
      show scanAux tryM (mh :: (mt ++ s)) 0 = r ++ scanAux tryM s 0
      rw [List.cons_append] at h
      rw [scanAux, h]
      dsimp only
      have hlen : (mh :: (mt ++ s)).length - s.length - 1 = mt.length := by
        simp only [List.length_cons, List.length_append]
        omega
      rw [hlen, scanAux_skip]

/-- Scanner step on a failed match: copy the character and continue. -/
theorem jsReplaceAll_nomatch
    (tryM : List Char → Option (List Char × List Char))
    (c : Char) (cs : List Char) (h : tryM (c :: cs) = none) :
    jsReplaceAll tryM (c :: cs) = c :: jsReplaceAll tryM cs := by
  show scanAux tryM (c :: cs) 0 = c :: scanAux tryM cs 0
  rw [scanAux, h]

theorem jsReplaceAll_nil (tryM : List Char → Option (List Char × List Char)) :
    jsReplaceAll tryM [] = [] := rfl

end BookTracker

namespace BookTracker

/-! ## Plain-text extraction (`src/server.js`, lines 572–586)

The `txt` endpoint strips the scripture markup with a fixed chain of
replacements: style and script blocks removed wholesale, the two-span
annotation pairs collapsed to the character component, `</p>` to a
blank line, `<br>` to a newline, all remaining tags removed, the four
named entities decoded, space/tab runs collapsed, runs of three or
more newlines collapsed to one blank line, and a final trim. -/

/-- `/<style[^>]*>[\s\S]*?<\/style>/gi` (and the `script` analogue):
after the opening tag, the lazy `[\s\S]*?` ends at the first closing
tag; no closing tag means no match. -/
def findCloseCI (pat : List Char) : List Char → Option (List Char)
  | [] => none
  | c :: cs =>
      match matchCI pat (c :: cs) with
      | some rest => some rest
      | none => findCloseCI pat cs

def tryBlock (openTag closeTag : List Char) (s : List Char) :
    Option (List Char × List Char) := do
  let s1 ← matchCI openTag s
  let s2 := s1.dropWhile (fun c => c ≠ '>')
  match s2 with
  | '>' :: s3 => (findCloseCI closeTag s3).map fun rest => ([], rest)
  | _ => none

def tryStyle (s : List Char) : Option (List Char × List Char) :=
  tryBlock "<style".data "</style>".data s

def tryScript (s : List Char) : Option (List Char × List Char) :=
  tryBlock "<script".data "</script>".data s

/-- `/<i><span>[^<]*<\/span><span>([^<]*)<\/span><\/i>/gi` → `'$1'`:
collapse an annotation pair to its character component. -/
def tryPairCollapse (s : List Char) : Option (List Char × List Char) := do
  let s1 ← matchCI "<i><span>".data s
  let s2 := s1.dropWhile (fun c => c ≠ '<')
  let s3 ← matchCI "</span><span>".data s2
  let hz := s3.takeWhile (fun c => c ≠ '<')
  let s4 := s3.dropWhile (fun c => c ≠ '<')
  let s5 ← matchCI "</span></i>".data s4
  return (hz, s5)

/-- `/<\/p>/gi` → `'\n\n'`. -/
def tryPEnd (s : List Char) : Option (List Char × List Char) :=
  (matchCI "</p>".data s).map fun r => ("\n\n".data, r)

/-- `/<br\s*\/?>/gi` → `'\n'`. -/
def tryBr (s : List Char) : Option (List Char × List Char) := do
  let s1 ← matchCI "<br".data s
  let s2 := s1.dropWhile isJsSpace
  match s2 with
  | '/' :: '>' :: r => some ("\n".data, r)
  | '>' :: r => some ("\n".data, r)
  | _ => none

/-- `/<[^>]+>/g` → `''`: strip any remaining tag. -/
def tryTag (s : List Char) : Option (List Char × List Char) :=
  match s with
  | '<' :: s1 =>
      match s1.takeWhile (fun c => c ≠ '>') with
      | [] => none
      | _ :: _ =>
          match s1.dropWhile (fun c => c ≠ '>') with
          | '>' :: r => some ([], r)
          | _ => none
  | _ => none

/-- A literal global replacement such as `/&nbsp;/g` → `' '`
(case-sensitive: these patterns carry no `i` flag). -/
def tryLit (pat repl : List Char) (s : List Char) :
    Option (List Char × List Char) :=
  (matchLit pat s).map fun r => (repl, r)

/-- `/[ \t]+/g` → `' '`. -/
def trySpaces (s : List Char) : Option (List Char × List Char) :=
  match s with
  | c :: cs =>
      if c = ' ' ∨ c = '\t' then
        some ([' '], cs.dropWhile fun d => d = ' ' ∨ d = '\t')
      else none
  | [] => none

/-- `/\n{3,}/g` → `'\n\n'`. -/
def tryNewlines (s : List Char) : Option (List Char × List Char) :=
  match s with
  | '\n' :: '\n' :: '\n' :: r =>
      some (['\n', '\n'], r.dropWhile fun d => d = '\n')
  | _ => none

/-- Whitespace removed by JS `String.prototype.trim` — the same set as
`isJsSpace`. -/
def isTrimWs (c : Char) : Bool :=
  isJsSpace c

def jsTrim (cs : List Char) : List Char :=
  ((cs.dropWhile isTrimWs).reverse.dropWhile isTrimWs).reverse

/-- The full plain-text pipeline of the `txt` endpoint, in source
order. -/
def extractPlainTextChars (cs : List Char) : List Char :=
  jsTrim
    (jsReplaceAll tryNewlines
      (jsReplaceAll trySpaces
        (jsReplaceAll (tryLit "&amp;".data ['&'])
          (jsReplaceAll (tryLit "&gt;".data ['>'])
            (jsReplaceAll (tryLit "&lt;".data ['<'])
              (jsReplaceAll (tryLit "&nbsp;".data [' '])
                (jsReplaceAll tryTag
                  (jsReplaceAll tryBr
                    (jsReplaceAll tryPEnd
                      (jsReplaceAll tryPairCollapse
                        (jsReplaceAll tryScript
                          (jsReplaceAll tryStyle cs))))))))))))

def extractPlainText (s : String) : String :=
  String.mk (extractPlainTextChars s.data)

/-! ## The PDF punctuation-repair and annotation-pairing transform
(`src/server.js`, lines 638–651; the repair stage is also
`normalizeScriptureHtml` in `src/App.tsx`)

Stage A (repair), applied first:
`/<span class=(?:["'])?(?:dou|dian)(?:["'])?>([^<]*)<\/span>(<\/span><\/i>)/gi`
→ `'$2<i><span> </span><span>$1</span></i>'` — a punctuation span
nested at the end of the hanzi span is extracted into its own sibling
annotation block with a non-breaking-space phonetic part.

Stage B (pairing), applied to stage A's output:
`/<i><span[^>]*>([^<]*)<\/span><span[^>]*>([^<]*)<\/span><\/i>/gi`
→ `<span class="py-pair"><span class="py">…</span><span class="hz">…</span></span>`
with the phonetic part `py.trim() || ' '`. -/

/-- Consume `(?:["'])?` — one optional quote character. -/
def skipQuote (s : List Char) : List Char :=
  match s with
  | c :: cs => if c = '"' ∨ c = Char.ofNat 39 then cs else s
  | [] => s

/-- The repair pattern of stage A.  Group 1 is the punctuation text
(`[^<]*`), group 2 the literal `</span></i>` as it appeared in the
input (the `i` flag matches it case-insensitively and `$2` writes back
the original text). -/
def tryRepair (s : List Char) : Option (List Char × List Char) :=
  match matchCI "<span class=".data s with
  | none => none
  | some s1 =>
      let s2 := skipQuote s1
      match (match matchCI "dou".data s2 with
             | some r => some r
             | none => matchCI "dian".data s2) with
      | none => none
      | some s3 =>
          match skipQuote s3 with
          | [] => none
          | c :: s5 =>
              if c = '>' then
                let g1 := s5.takeWhile (fun c => c ≠ '<')
                match matchCI "</span>".data (s5.dropWhile (fun c => c ≠ '<')) with
                | none => none
                | some s7 =>
                    match matchCI "</span></i>".data s7 with
                    | none => none
                    | some s8 =>
                        some (s7.take 11 ++ "<i><span>\u00A0</span><span>".data ++
                              g1 ++ "</span></i>".data, s8)
              else none

/-- The pairing pattern of stage B.  Group 1 is the phonetic text,
group 2 the character text. -/
def tryPairUp (s : List Char) : Option (List Char × List Char) :=
  match matchCI "<i><span".data s with
  | none => none
  | some s1 =>
      match s1.dropWhile (fun c => c ≠ '>') with
      | [] => none
      | c :: s3 =>
          if c = '>' then
            let py := s3.takeWhile (fun c => c ≠ '<')
            match matchCI "</span><span".data (s3.dropWhile (fun c => c ≠ '<')) with
            | none => none
            | some s5 =>
                match s5.dropWhile (fun c => c ≠ '>') with
                | [] => none
                | c2 :: s7 =>
                    if c2 = '>' then
                      let hz := s7.takeWhile (fun c => c ≠ '<')
                      match matchCI "</span></i>".data
                          (s7.dropWhile (fun c => c ≠ '<')) with
                      | none => none
                      | some s9 =>
                          some ("<span class=\"py-pair\"><span class=\"py\">".data ++
                                (if jsTrim py = [] then "\u00A0".data else jsTrim py) ++
                                "</span><span class=\"hz\">".data ++ hz ++
                                "</span></span>".data, s9)
                    else none
          else none

/-- The full repair-and-pairing transform of the PDF endpoint: stage A
then stage B. -/
def repairTransform (s : List Char) : List Char :=
  jsReplaceAll tryPairUp (jsReplaceAll tryRepair s)

def normalizePdfHtml (s : String) : String :=
  String.mk (repairTransform s.data)

/-! ### Scan-transparency machinery

`ScanFree M b` says the matcher `M` matches at no position inside `b`,
whatever follows `b` — so the scanner copies `b` verbatim and a
replacement pass distributes over concatenation at `b`'s boundaries. -/

/-- The text contains no `<` — the character every pattern of both
stages must begin with. -/
def NoLt (t : List Char) : Prop := ∀ c ∈ t, c ≠ '<'

instance (t : List Char) : Decidable (NoLt t) := by
  unfold NoLt; infer_instance

def ScanFree (M : List Char → Option (List Char × List Char))
    (b : List Char) : Prop :=
  ∀ b1 b2 s, b = b1 ++ b2 → b2 ≠ [] → M (b2 ++ s) = none

theorem scanFree_nil (M : List Char → Option (List Char × List Char)) :
    ScanFree M [] := by
  intro b1 b2 s hsplit hne
  exact absurd (List.append_eq_nil.mp hsplit.symm).2 hne

theorem scanFree_cons (M : List Char → Option (List Char × List Char))
    (c : Char) (b : List Char)
    (h1 : ∀ s, M (c :: (b ++ s)) = none) (h2 : ScanFree M b) :
    ScanFree M (c :: b) := by
  intro b1 b2 s hsplit hne
  cases b1 with
  | nil =>
      simp only [List.nil_append] at hsplit
      subst hsplit
      simpa using h1 s
  | cons d ds =>
      simp only [List.cons_append, List.cons.injEq] at hsplit
      exact h2 ds b2 s hsplit.2 hne

theorem scanFree_append (M : List Char → Option (List Char × List Char))
    (a b : List Char) (ha : ScanFree M a) (hb : ScanFree M b) :
    ScanFree M (a ++ b) := by
  induction a with
  | nil => simpa using hb
  | cons c cs ih =>
      rw [List.cons_append]
      refine scanFree_cons M c (cs ++ b) (fun s => ?_) ?_
      · have := ha [] (c :: cs) (b ++ s) rfl (by simp)
        simpa using this
      · refine ih fun b1 b2 s hsplit hne => ?_
        exact ha (c :: b1) b2 s (by rw [List.cons_append, hsplit]) hne

theorem jsReplaceAll_scanFree_append
    (M : List Char → Option (List Char × List Char)) (b s : List Char)
    (h : ScanFree M b) :
    jsReplaceAll M (b ++ s) = b ++ jsReplaceAll M s := by
  induction b with
  | nil => rfl
  | cons c cs ih =>
      rw [List.cons_append,
        jsReplaceAll_nomatch M c (cs ++ s) (by simpa using h [] (c :: cs) s rfl (by simp)),
        ih fun b1 b2 s' hsplit hne => h (c :: b1) b2 s' (by rw [hsplit]; rfl) hne]
      rfl

theorem jsReplaceAll_eq_self_of_scanFree
    (M : List Char → Option (List Char × List Char)) (b : List Char)
    (h : ScanFree M b) : jsReplaceAll M b = b := by
  have h2 := jsReplaceAll_scanFree_append M b [] h
  rw [List.append_nil, jsReplaceAll_nil, List.append_nil] at h2
  exact h2

/-! ### Character-level failure lemmas

Both stage patterns start with `<`; the repair pattern continues with
`s`, the pairing pattern with `i` (matched case-insensitively). -/

theorem char_eq_of_toNat (c : Char) (n : Nat) (a : Char)
    (h : c.toNat = n) (ha : Char.ofNat n = a) : c = a := by
  have h2 := Char.ofNat_toNat c
  rw [h, ha] at h2
  exact h2.symm

/-- `ciEq` at a non-letter pattern character (like `<`) is plain
equality. -/
theorem ciEq_symbol_false (a : Char) (ha : a.toNat < 65) (c : Char)
    (h : c ≠ a) : ciEq a c = false := by
  unfold ciEq
  have e1 : (a == c) = false := beq_eq_false_iff_ne.mpr fun hh => h hh.symm
  have e2 : decide (65 ≤ a.toNat) = false := by
    simp only [decide_eq_false_iff_not]
    omega
  rw [e1, e2]
  by_cases h3 : (a.toNat == c.toNat + 32) = true
  · have hc : a.toNat = c.toNat + 32 := by simpa using h3
    have e3 : decide (65 ≤ c.toNat) = false := by
      simp only [decide_eq_false_iff_not]
      omega
    simp [e3]
  · have e3 : (a.toNat == c.toNat + 32) = false := by
      cases hq : (a.toNat == c.toNat + 32)
      · rfl
      · exact absurd hq h3
    simp [e3]

/-- `ciEq` at a lowercase pattern letter accepts exactly that letter
and its uppercase form. -/
theorem ciEq_lower_false (a : Char) (ha1 : 97 ≤ a.toNat) (ha2 : a.toNat ≤ 122)
    (c : Char) (h1 : c ≠ a) (h2 : c.toNat + 32 ≠ a.toNat) :
    ciEq a c = false := by
  unfold ciEq
  have e1 : (a == c) = false := beq_eq_false_iff_ne.mpr fun hh => h1 hh.symm
  have e2 : decide (a.toNat ≤ 90) = false := by
    simp only [decide_eq_false_iff_not]
    omega
  have e3 : (a.toNat == c.toNat + 32) = false := by
    cases hq : (a.toNat == c.toNat + 32)
    · rfl
    · exact absurd (by simpa using hq : a.toNat = c.toNat + 32).symm h2
  rw [e1, e2, e3]
  simp

theorem ciEq_lt_false (c : Char) (h : c ≠ '<') : ciEq '<' c = false :=
  ciEq_symbol_false '<' (by decide) c h

theorem ciEq_s_false (c : Char) (h1 : c ≠ 's') (h2 : c ≠ 'S') :
    ciEq 's' c = false := by
  refine ciEq_lower_false 's' (by decide) (by decide) c h1 fun hc => ?_
  exact h2 (char_eq_of_toNat c 83 'S' (by
    have : Char.toNat 's' = 115 := by decide
    omega) (by decide))

theorem ciEq_i_false (c : Char) (h1 : c ≠ 'i') (h2 : c ≠ 'I') :
    ciEq 'i' c = false := by
  refine ciEq_lower_false 'i' (by decide) (by decide) c h1 fun hc => ?_
  exact h2 (char_eq_of_toNat c 73 'I' (by
    have : Char.toNat 'i' = 105 := by decide
    omega) (by decide))

theorem matchCI_cons_false (p c : Char) (ps cs : List Char)
    (h : ciEq p c = false) : matchCI (p :: ps) (c :: cs) = none := by
  simp [matchCI, h]

/-- A case-insensitive pattern consumes an exact copy of itself. -/
theorem matchCI_refl_append (pat s : List Char) :
    matchCI pat (pat ++ s) = some s := by
  induction pat with
  | nil => rfl
  | cons p ps ih =>
      rw [List.cons_append]
      show (if ciEq p p = true then matchCI ps (ps ++ s) else none) = some s
      rw [if_pos (by simp [ciEq]), ih]

theorem tryRepair_head_ne_lt (c : Char) (h : c ≠ '<') (s : List Char) :
    tryRepair (c :: s) = none := by
  have h1 : matchCI "<span class=".data (c :: s) = none := by
    rw [show ("<span class=".data : List Char) = '<' :: "span class=".data from rfl]
    exact matchCI_cons_false '<' c _ _ (ciEq_lt_false c h)
  unfold tryRepair
  rw [h1]

theorem tryPairUp_head_ne_lt (c : Char) (h : c ≠ '<') (s : List Char) :
    tryPairUp (c :: s) = none := by
  have h1 : matchCI "<i><span".data (c :: s) = none := by
    rw [show ("<i><span".data : List Char) = '<' :: "i><span".data from rfl]
    exact matchCI_cons_false '<' c _ _ (ciEq_lt_false c h)
  unfold tryPairUp
  rw [h1]

theorem tryRepair_head2 (c : Char) (h : ciEq 's' c = false) (s : List Char) :
    tryRepair ('<' :: c :: s) = none := by
  have h1 : matchCI "<span class=".data ('<' :: c :: s) = none := by
    rw [show ("<span class=".data : List Char) =
        '<' :: 's' :: "pan class=".data from rfl]
    show (if ciEq '<' '<' = true then
        matchCI ('s' :: "pan class=".data) (c :: s) else none) = none
    rw [if_pos (by decide)]
    exact matchCI_cons_false 's' c _ _ h
  unfold tryRepair
  rw [h1]

theorem tryPairUp_head2 (c : Char) (h : ciEq 'i' c = false) (s : List Char) :
    tryPairUp ('<' :: c :: s) = none := by
  have h1 : matchCI "<i><span".data ('<' :: c :: s) = none := by
    rw [show ("<i><span".data : List Char) = '<' :: 'i' :: "><span".data from rfl]
    show (if ciEq '<' '<' = true then
        matchCI ('i' :: "><span".data) (c :: s) else none) = none
    rw [if_pos (by decide)]
    exact matchCI_cons_false 'i' c _ _ h
  unfold tryPairUp
  rw [h1]

/-- Plain text (no `<`) is transparent to any matcher whose pattern
starts with `<`. -/
theorem scanFree_noLt (M : List Char → Option (List Char × List Char))
    (hM : ∀ c s, c ≠ '<' → M (c :: s) = none) (t : List Char) (ht : NoLt t) :
    ScanFree M t := by
  induction t with
  | nil => exact scanFree_nil M
  | cons c cs ih =>
      refine scanFree_cons M c cs (fun s => hM c _ (ht c (by simp))) ?_
      exact ih fun d hd => ht d (by simp [hd])

theorem scanFree_noLt_repair (t : List Char) (ht : NoLt t) :
    ScanFree tryRepair t :=
  scanFree_noLt tryRepair (fun c s h => tryRepair_head_ne_lt c h s) t ht

theorem scanFree_noLt_pairUp (t : List Char) (ht : NoLt t) :
    ScanFree tryPairUp t :=
  scanFree_noLt tryPairUp (fun c s h => tryPairUp_head_ne_lt c h s) t ht

/-- `takeWhile` over a run satisfying the predicate, stopped by an
explicit failing element. -/
theorem takeWhile_append_cons (p : Char → Bool) (xs : List Char) (y : Char)
    (ys : List Char) (hxs : ∀ x ∈ xs, p x = true) (hy : p y = false) :
    (xs ++ y :: ys).takeWhile p = xs := by
  induction xs with
  | nil => simp [List.takeWhile_cons, hy]
  | cons a as ih =>
      rw [List.cons_append, List.takeWhile_cons, hxs a (by simp)]
      simp only [if_true]
      rw [ih fun x hx => hxs x (by simp [hx])]

theorem dropWhile_append_cons (p : Char → Bool) (xs : List Char) (y : Char)
    (ys : List Char) (hxs : ∀ x ∈ xs, p x = true) (hy : p y = false) :
    (xs ++ y :: ys).dropWhile p = y :: ys := by
  induction xs with
  | nil => simp [List.dropWhile_cons, hy]
  | cons a as ih =>
      rw [List.cons_append, List.dropWhile_cons, hxs a (by simp)]
      simp only [if_true]
      exact ih fun x hx => hxs x (by simp [hx])

theorem NoLt_jsTrim (t : List Char) (h : NoLt t) : NoLt (jsTrim t) := by
  intro c hc
  apply h
  unfold jsTrim at hc
  rw [List.mem_reverse] at hc
  have h1 := (List.dropWhile_sublist isTrimWs).mem hc
  rw [List.mem_reverse] at h1
  exact (List.dropWhile_sublist isTrimWs).mem h1

/-! ### The upstream document grammar

The upstream scripture markup, as the PDF endpoint's own comments
describe it, is plain text and simple tags interleaved with annotation
blocks `<i><span>py</span><span>hz</span></i>`, where the hanzi span
may carry a trailing nested punctuation span
(`<span class=dou>…</span>`).  The amended idempotence claim is proved
over this grammar; the counterexample below shows it fails on
arbitrary strings. -/

/-- One piece of an upstream document. -/
inductive ScriptureItem where
  | text (t : List Char)
  | tag (t : List Char)
  | annot (py hz : List Char)
  | annotP (py hz p : List Char)
deriving DecidableEq, Repr

/-- A simple tag `'<' :: t` (such as `<p>`, `</p>`, `<br/>`) is safe
when its first character is not the `s`/`i` (in either case) that the
two patterns continue with, and it contains no further `<`. -/
def TagOk : List Char → Prop
  | [] => False
  | c2 :: t' => c2 ≠ '<' ∧ c2 ≠ 's' ∧ c2 ≠ 'S' ∧ c2 ≠ 'i' ∧ c2 ≠ 'I' ∧ NoLt t'

instance : (t : List Char) → Decidable (TagOk t)
  | [] => isFalse fun h => h
  | _ :: _ => by unfold TagOk; infer_instance

def WFItem : ScriptureItem → Prop
  | ScriptureItem.text t => NoLt t
  | ScriptureItem.tag t => TagOk t
  | ScriptureItem.annot py hz => NoLt py ∧ NoLt hz
  | ScriptureItem.annotP py hz p => NoLt py ∧ NoLt hz ∧ NoLt p

instance : (i : ScriptureItem) → Decidable (WFItem i)
  | ScriptureItem.text _ => by unfold WFItem; infer_instance
  | ScriptureItem.tag _ => by unfold WFItem; infer_instance
  | ScriptureItem.annot _ _ => by unfold WFItem; infer_instance
  | ScriptureItem.annotP _ _ _ => by unfold WFItem; infer_instance

def WFDoc (d : List ScriptureItem) : Prop := ∀ i ∈ d, WFItem i

instance (d : List ScriptureItem) : Decidable (WFDoc d) := by
  unfold WFDoc; infer_instance

/-- A two-sibling-span annotation block. -/
def renderAnnot (py hz : List Char) : List Char :=
  "<i><span>".data ++ py ++ "</span><span>".data ++ hz ++ "</span></i>".data

def renderItem : ScriptureItem → List Char
  | ScriptureItem.text t => t
  | ScriptureItem.tag t => '<' :: t
  | ScriptureItem.annot py hz => renderAnnot py hz
  | ScriptureItem.annotP py hz p =>
      "<i><span>".data ++ py ++ "</span><span>".data ++ hz ++
        ("<span class=dou>".data ++ p ++ "</span></span></i>".data)

def renderDoc : List ScriptureItem → List Char
  | [] => []
  | i :: rest => renderItem i ++ renderDoc rest

/-- What stage A leaves of each item: the nested punctuation span is
extracted into its own annotation block with a non-breaking-space
phonetic part. -/
def renderItemA : ScriptureItem → List Char
  | ScriptureItem.text t => t
  | ScriptureItem.tag t => '<' :: t
  | ScriptureItem.annot py hz => renderAnnot py hz
  | ScriptureItem.annotP py hz p =>
      renderAnnot py hz ++ renderAnnot " ".data p

def renderDocA : List ScriptureItem → List Char
  | [] => []
  | i :: rest => renderItemA i ++ renderDocA rest

/-- The stacked pair stage B rewrites an annotation block to. -/
def pairRepl (py hz : List Char) : List Char :=
  "<span class=\"py-pair\"><span class=\"py\">".data ++
    (if jsTrim py = [] then " ".data else jsTrim py) ++
    "</span><span class=\"hz\">".data ++ hz ++ "</span></span>".data

/-- What stage A's replacement inserts for an extracted punctuation
span (`$2` is the closing `</span></i>` of the enclosing block). -/
def repairRepl (g1 : List Char) : List Char :=
  "</span></i>".data ++ "<i><span> </span><span>".data ++ g1 ++
    "</span></i>".data

/-- What the full transform leaves of each item. -/
def renderItemB : ScriptureItem → List Char
  | ScriptureItem.text t => t
  | ScriptureItem.tag t => '<' :: t
  | ScriptureItem.annot py hz => pairRepl py hz
  | ScriptureItem.annotP py hz p =>
      pairRepl py hz ++ pairRepl " ".data p

def renderDocB : List ScriptureItem → List Char
  | [] => []
  | i :: rest => renderItemB i ++ renderDocB rest

theorem NoLt_pinyin (py : List Char) (h : NoLt py) :
    NoLt (if jsTrim py = [] then " ".data else jsTrim py) := by
  split
  · decide
  · exact NoLt_jsTrim py h

/-! ### The concrete tag segments are transparent to both matchers.
Each suffix of each segment fails its pattern within the segment's own
characters, so the failures hold whatever follows. -/

theorem sfR_ispan : ScanFree tryRepair "<i><span>".data := by
  repeat refine scanFree_cons _ _ _ (fun s => rfl) ?_
  exact scanFree_nil _

theorem sfR_midspan : ScanFree tryRepair "</span><span>".data := by
  repeat refine scanFree_cons _ _ _ (fun s => rfl) ?_
  exact scanFree_nil _

theorem sfR_closei : ScanFree tryRepair "</span></i>".data := by
  repeat refine scanFree_cons _ _ _ (fun s => rfl) ?_
  exact scanFree_nil _

theorem sfR_pairSeg1 :
    ScanFree tryRepair "<span class=\"py-pair\"><span class=\"py\">".data := by
  repeat refine scanFree_cons _ _ _ (fun s => rfl) ?_
  exact scanFree_nil _

theorem sfR_pairSeg2 : ScanFree tryRepair "</span><span class=\"hz\">".data := by
  repeat refine scanFree_cons _ _ _ (fun s => rfl) ?_
  exact scanFree_nil _

theorem sfR_pairSeg3 : ScanFree tryRepair "</span></span>".data := by
  repeat refine scanFree_cons _ _ _ (fun s => rfl) ?_
  exact scanFree_nil _

theorem sfP_pairSeg1 :
    ScanFree tryPairUp "<span class=\"py-pair\"><span class=\"py\">".data := by
  repeat refine scanFree_cons _ _ _ (fun s => rfl) ?_
  exact scanFree_nil _

theorem sfP_pairSeg2 : ScanFree tryPairUp "</span><span class=\"hz\">".data := by
  repeat refine scanFree_cons _ _ _ (fun s => rfl) ?_
  exact scanFree_nil _

theorem sfP_pairSeg3 : ScanFree tryPairUp "</span></span>".data := by
  repeat refine scanFree_cons _ _ _ (fun s => rfl) ?_
  exact scanFree_nil _

theorem scanFree_tag_repair (t : List Char) (h : TagOk t) :
    ScanFree tryRepair ('<' :: t) := by
  match t, h with
  | c2 :: t', ⟨hlt, hs, hS, _, _, ht⟩ =>
      refine scanFree_cons _ _ _ (fun s => ?_) ?_
      · exact tryRepair_head2 c2 (ciEq_s_false c2 hs hS) (t' ++ s)
      · exact scanFree_cons _ _ _ (fun s => tryRepair_head_ne_lt c2 hlt _)
          (scanFree_noLt_repair t' ht)

theorem scanFree_tag_pairUp (t : List Char) (h : TagOk t) :
    ScanFree tryPairUp ('<' :: t) := by
  match t, h with
  | c2 :: t', ⟨hlt, _, _, hi, hI, ht⟩ =>
      refine scanFree_cons _ _ _ (fun s => ?_) ?_
      · exact tryPairUp_head2 c2 (ciEq_i_false c2 hi hI) (t' ++ s)
      · exact scanFree_cons _ _ _ (fun s => tryPairUp_head_ne_lt c2 hlt _)
          (scanFree_noLt_pairUp t' ht)

/-- Stage A matches nowhere inside a well-formed two-span annotation
block. -/
theorem scanFree_renderAnnot_repair (py hz : List Char)
    (hpy : NoLt py) (hhz : NoLt hz) :
    ScanFree tryRepair (renderAnnot py hz) := by
  unfold renderAnnot
  exact scanFree_append _ _ _
    (scanFree_append _ _ _
      (scanFree_append _ _ _
        (scanFree_append _ _ _ sfR_ispan (scanFree_noLt_repair py hpy))
        sfR_midspan)
      (scanFree_noLt_repair hz hhz))
    sfR_closei

/-- Neither stage matches anywhere inside a stacked pair. -/
theorem scanFree_pairRepl_repair (py hz : List Char)
    (hpy : NoLt py) (hhz : NoLt hz) :
    ScanFree tryRepair (pairRepl py hz) := by
  unfold pairRepl
  exact scanFree_append _ _ _
    (scanFree_append _ _ _
      (scanFree_append _ _ _
        (scanFree_append _ _ _ sfR_pairSeg1
          (scanFree_noLt_repair _ (NoLt_pinyin py hpy)))
        sfR_pairSeg2)
      (scanFree_noLt_repair hz hhz))
    sfR_pairSeg3

theorem scanFree_pairRepl_pairUp (py hz : List Char)
    (hpy : NoLt py) (hhz : NoLt hz) :
    ScanFree tryPairUp (pairRepl py hz) := by
  unfold pairRepl
  exact scanFree_append _ _ _
    (scanFree_append _ _ _
      (scanFree_append _ _ _
        (scanFree_append _ _ _ sfP_pairSeg1
          (scanFree_noLt_pairUp _ (NoLt_pinyin py hpy)))
        sfP_pairSeg2)
      (scanFree_noLt_pairUp hz hhz))
    sfP_pairSeg3

/-! ### The two patterns at their match points -/

theorem dropWhile_ne_cons (a : Char) (l : List Char) :
    (a :: l).dropWhile (fun c => c ≠ a) = a :: l := by
  simp [List.dropWhile_cons]

theorem takeWhile_ne_lt (py T : List Char) (hpy : NoLt py) :
    (py ++ '<' :: T).takeWhile (fun c => c ≠ '<') = py :=
  takeWhile_append_cons _ py '<' T
    (fun x hx => decide_eq_true (hpy x hx)) (by decide)

theorem dropWhile_ne_lt (py T : List Char) (hpy : NoLt py) :
    (py ++ '<' :: T).dropWhile (fun c => c ≠ '<') = '<' :: T :=
  dropWhile_append_cons _ py '<' T
    (fun x hx => decide_eq_true (hpy x hx)) (by decide)

/-- Stage B's pattern at a well-formed annotation block: it consumes
exactly the block and produces the stacked pair. -/
theorem tryPairUp_annot (py hz rest : List Char)
    (hpy : NoLt py) (hhz : NoLt hz) :
    tryPairUp (renderAnnot py hz ++ rest) = some (pairRepl py hz, rest) := by
  have e1 : renderAnnot py hz ++ rest =
      "<i><span".data ++ ('>' :: (py ++ ('<' :: ("/span><span".data ++
        ('>' :: (hz ++ ('<' :: ("/span></i>".data ++ rest)))))))) := by
    unfold renderAnnot
    simp only [List.append_assoc]
    rfl
  rw [e1]
  unfold tryPairUp
  rw [matchCI_refl_append]
  dsimp only
  rw [dropWhile_ne_cons '>' _]
  dsimp only
  rw [takeWhile_ne_lt py _ hpy, dropWhile_ne_lt py _ hpy]
  rw [show ('<' :: ("/span><span".data ++ ('>' :: (hz ++ ('<' ::
      ("/span></i>".data ++ rest)))))) = "</span><span".data ++
      ('>' :: (hz ++ ('<' :: ("/span></i>".data ++ rest)))) from rfl]
  rw [matchCI_refl_append]
  dsimp only
  rw [dropWhile_ne_cons '>' _]
  dsimp only
  rw [takeWhile_ne_lt hz _ hhz, dropWhile_ne_lt hz _ hhz]
  rw [show ('<' :: ("/span></i>".data ++ rest)) =
      "</span></i>".data ++ rest from rfl]
  rw [matchCI_refl_append]
  simp only [reduceIte]
  rfl

/-- Stage A's pattern at a nested punctuation span: it consumes the
span together with the enclosing block's closing tags and produces the
closing tags followed by a fresh annotation block for the punctuation. -/
theorem tryRepair_dou (p rest : List Char) (hp : NoLt p) :
    tryRepair ("<span class=dou>".data ++ p ++
        "</span></span></i>".data ++ rest) =
      some (repairRepl p, rest) := by
  have e1 : ("<span class=dou>".data : List Char) ++ p ++
        "</span></span></i>".data ++ rest =
      "<span class=".data ++ ("dou".data ++ ('>' :: (p ++ ('<' ::
        ("/span>".data ++ ("</span></i>".data ++ rest)))))) := by
    simp only [List.append_assoc]
    rfl
  rw [e1]
  unfold tryRepair
  rw [matchCI_refl_append]
  dsimp only
  rw [show skipQuote ("dou".data ++ ('>' :: (p ++ ('<' ::
      ("/span>".data ++ ("</span></i>".data ++ rest)))))) =
      "dou".data ++ ('>' :: (p ++ ('<' ::
      ("/span>".data ++ ("</span></i>".data ++ rest))))) from rfl]
  rw [matchCI_refl_append]
  dsimp only
  rw [show skipQuote ('>' :: (p ++ ('<' ::
      ("/span>".data ++ ("</span></i>".data ++ rest))))) =
      '>' :: (p ++ ('<' :: ("/span>".data ++
      ("</span></i>".data ++ rest)))) from rfl]
  dsimp only
  rw [takeWhile_ne_lt p _ hp, dropWhile_ne_lt p _ hp]
  rw [show ('<' :: ("/span>".data ++ ("</span></i>".data ++ rest))) =
      "</span>".data ++ ("</span></i>".data ++ rest) from rfl]
  rw [matchCI_refl_append]
  dsimp only
  rw [show ("</span></i>".data ++ rest : List Char) =
      "</span></i>".data ++ rest from rfl, matchCI_refl_append]
  dsimp only
  simp only [reduceIte]
  rw [show (11 : Nat) = ("</span></i>".data : List Char).length from rfl,
    List.take_left]
  rfl

/-! ### The transform on whole documents -/

theorem WFDoc_head {i : ScriptureItem} {rest : List ScriptureItem}
    (h : WFDoc (i :: rest)) : WFItem i :=
  h i (List.mem_cons_self i rest)

theorem WFDoc_tail {i : ScriptureItem} {rest : List ScriptureItem}
    (h : WFDoc (i :: rest)) : WFDoc rest :=
  fun j hj => h j (List.mem_cons_of_mem i hj)

/-- Stage A on an upstream document: punctuation spans are extracted,
everything else is copied. -/
theorem stageA_renderDoc (d : List ScriptureItem) (h : WFDoc d) :
    jsReplaceAll tryRepair (renderDoc d) = renderDocA d := by
  induction d with
  | nil => rfl
  | cons i rest ih =>
      have hi := WFDoc_head h
      have hrest := WFDoc_tail h
      show jsReplaceAll tryRepair (renderItem i ++ renderDoc rest) =
        renderItemA i ++ renderDocA rest
      cases i with
      | text t =>
          dsimp only [renderItem, renderItemA]
          rw [jsReplaceAll_scanFree_append _ _ _ (scanFree_noLt_repair t hi),
            ih hrest]
      | tag t =>
          dsimp only [renderItem, renderItemA]
          rw [jsReplaceAll_scanFree_append _ _ _ (scanFree_tag_repair t hi),
            ih hrest]
      | annot py hz =>
          dsimp only [renderItem, renderItemA]
          rw [jsReplaceAll_scanFree_append _ _ _
            (scanFree_renderAnnot_repair py hz hi.1 hi.2), ih hrest]
      | annotP py hz p =>
          obtain ⟨hpy, hhz, hp⟩ := hi
          have e1 : renderItem (ScriptureItem.annotP py hz p) ++ renderDoc rest =
              ((("<i><span>".data ++ py) ++ "</span><span>".data) ++ hz) ++
                (("<span class=dou>".data ++ p ++
                  "</span></span></i>".data) ++ renderDoc rest) :=
            List.append_assoc _ _ _
          rw [e1]
          have hpre : ScanFree tryRepair
              ((("<i><span>".data ++ py) ++ "</span><span>".data) ++ hz) :=
            scanFree_append _ _ _
              (scanFree_append _ _ _
                (scanFree_append _ _ _ sfR_ispan (scanFree_noLt_repair py hpy))
                sfR_midspan)
              (scanFree_noLt_repair hz hhz)
          rw [jsReplaceAll_scanFree_append _ _ _ hpre]
          rw [jsReplaceAll_match tryRepair
            ("<span class=dou>".data ++ p ++ "</span></span></i>".data)
            (repairRepl p) (renderDoc rest) (by simp)
            (tryRepair_dou p (renderDoc rest) hp)]
          rw [ih hrest]
          show _ = (renderAnnot py hz ++ renderAnnot " ".data p) ++
            renderDocA rest
          unfold renderAnnot repairRepl
          simp only [List.append_assoc]
          rfl

/-- Stage B on stage A's output: every annotation block becomes a
stacked pair. -/
theorem stageB_renderDocA (d : List ScriptureItem) (h : WFDoc d) :
    jsReplaceAll tryPairUp (renderDocA d) = renderDocB d := by
  induction d with
  | nil => rfl
  | cons i rest ih =>
      have hi := WFDoc_head h
      have hrest := WFDoc_tail h
      show jsReplaceAll tryPairUp (renderItemA i ++ renderDocA rest) =
        renderItemB i ++ renderDocB rest
      cases i with
      | text t =>
          dsimp only [renderItemA, renderItemB]
          rw [jsReplaceAll_scanFree_append _ _ _ (scanFree_noLt_pairUp t hi),
            ih hrest]
      | tag t =>
          dsimp only [renderItemA, renderItemB]
          rw [jsReplaceAll_scanFree_append _ _ _ (scanFree_tag_pairUp t hi),
            ih hrest]
      | annot py hz =>
          dsimp only [renderItemA, renderItemB]
          rw [jsReplaceAll_match tryPairUp (renderAnnot py hz)
            (pairRepl py hz) (renderDocA rest)
            (by unfold renderAnnot; simp)
            (tryPairUp_annot py hz _ hi.1 hi.2), ih hrest]
      | annotP py hz p =>
          dsimp only [renderItemA, renderItemB]
          obtain ⟨hpy, hhz, hp⟩ := hi
          show jsReplaceAll tryPairUp
              ((renderAnnot py hz ++ renderAnnot " ".data p) ++
                renderDocA rest) = _
          rw [List.append_assoc]
          rw [jsReplaceAll_match tryPairUp (renderAnnot py hz)
            (pairRepl py hz) _ (by unfold renderAnnot; simp)
            (tryPairUp_annot py hz _ hpy hhz)]
          rw [jsReplaceAll_match tryPairUp (renderAnnot " ".data p)
            (pairRepl " ".data p) _ (by unfold renderAnnot; simp)
            (tryPairUp_annot _ p _ (by decide) hp), ih hrest]
          show pairRepl py hz ++ (pairRepl " ".data p ++ renderDocB rest) =
            (pairRepl py hz ++ pairRepl " ".data p) ++ renderDocB rest
          rw [List.append_assoc]

/-- The transform's output contains no further match of either
pattern. -/
theorem scanFree_renderDocB_repair (d : List ScriptureItem) (h : WFDoc d) :
    ScanFree tryRepair (renderDocB d) := by
  induction d with
  | nil => exact scanFree_nil _
  | cons i rest ih =>
      have hi := WFDoc_head h
      refine scanFree_append _ _ _ ?_ (ih (WFDoc_tail h))
      cases i with
      | text t => exact scanFree_noLt_repair t hi
      | tag t => exact scanFree_tag_repair t hi
      | annot py hz => exact scanFree_pairRepl_repair py hz hi.1 hi.2
      | annotP py hz p =>
          exact scanFree_append _ _ _
            (scanFree_pairRepl_repair py hz hi.1 hi.2.1)
            (scanFree_pairRepl_repair _ p (by decide) hi.2.2)

theorem scanFree_renderDocB_pairUp (d : List ScriptureItem) (h : WFDoc d) :
    ScanFree tryPairUp (renderDocB d) := by
  induction d with
  | nil => exact scanFree_nil _
  | cons i rest ih =>
      have hi := WFDoc_head h
      refine scanFree_append _ _ _ ?_ (ih (WFDoc_tail h))
      cases i with
      | text t => exact scanFree_noLt_pairUp t hi
      | tag t => exact scanFree_tag_pairUp t hi
      | annot py hz => exact scanFree_pairRepl_pairUp py hz hi.1 hi.2
      | annotP py hz p =>
          exact scanFree_append _ _ _
            (scanFree_pairRepl_pairUp py hz hi.1 hi.2.1)
            (scanFree_pairRepl_pairUp _ p (by decide) hi.2.2)

/-- C5 counterexample: the claim as stated fails on the code.  On the
input `<span class=dou>a</span><span class=dou>b</span></span></i>`
(two adjacent punctuation spans) the repair stage's replacement
re-creates its own pattern: the transform's output still contains a
nested-punctuation match, so applying the transform twice differs from
applying it once. -/
theorem repairTransform_not_idempotent :
    repairTransform (repairTransform
        "<span class=dou>a</span><span class=dou>b</span></span></i>".data) ≠
      repairTransform
        "<span class=dou>a</span><span class=dou>b</span></span></i>".data := by
  decide

/-- C5 amended: the repair-and-pairing transform is idempotent on
every document of the upstream's shape — plain text and simple tags
interleaved with two-span annotation blocks, optionally carrying one
trailing nested punctuation span — because on such input the
transform's output consists only of text, tags and stacked pairs, none
of which either pattern matches.  On arbitrary strings idempotence
fails (see the counterexample): adjacent punctuation spans make the
repair stage re-create the nested-punctuation pattern in its own
output. -/
theorem repairTransform_idempotent_on_upstream (d : List ScriptureItem)
    (h : WFDoc d) :
    repairTransform (renderDoc d) = renderDocB d ∧
    repairTransform (repairTransform (renderDoc d)) =
      repairTransform (renderDoc d) := by
  have h1 : repairTransform (renderDoc d) = renderDocB d := by
    unfold repairTransform
    rw [stageA_renderDoc d h, stageB_renderDocA d h]
  refine ⟨h1, ?_⟩
  rw [h1]
  unfold repairTransform
  rw [jsReplaceAll_eq_self_of_scanFree _ _ (scanFree_renderDocB_repair d h),
    jsReplaceAll_eq_self_of_scanFree _ _ (scanFree_renderDocB_pairUp d h)]

/-- A small upstream-shaped document: a paragraph with an annotated
character carrying nested punctuation, a plain annotation, and text. -/
def c5Doc : List ScriptureItem :=
  [ScriptureItem.tag "p>".data, ScriptureItem.text "X".data,
   ScriptureItem.annotP "py".data "字".data "，".data,
   ScriptureItem.annot "py2".data "好".data,
   ScriptureItem.tag "/p>".data]

/-- Witness for the amended C5: on a concrete upstream-shaped document
the transform applied twice equals the transform applied once. -/
theorem repairTransform_idempotent_on_upstream_witness :
    repairTransform (repairTransform (renderDoc c5Doc)) =
      repairTransform (renderDoc c5Doc) :=
  (repairTransform_idempotent_on_upstream c5Doc (by decide)).2

/-- C6: the plain-text extraction collapses the annotation pair of
`<p>A<i><span>py</span><span>字</span></i>B</p>` to its character
component, strips all markup, and trims — yielding exactly `A字B`;
the named entities `&nbsp;`, `&lt;`, `&gt;`, `&amp;` are decoded,
space/tab runs collapse to one space, and runs of 3+ newlines collapse
to one blank line.  The pipeline is a pure function, so its output is
deterministic for identical input. -/
theorem extractPlainText_spec :
    extractPlainText "<p>A<i><span>py</span><span>字</span></i>B</p>" = "A字B" ∧
    extractPlainText "a&nbsp;&nbsp;b" = "a b" ∧
    extractPlainText "x&lt;y&gt;z&amp;w" = "x<y>z&w" ∧
    extractPlainText "a\n\n\n\n\nb" = "a\n\nb" := by
  refine ⟨?_, ?_, ?_, ?_⟩ <;> decide

end BookTracker
